import Mathlib

/-!
Verification of the Mitrastar GPT-2541GNAC integration
(`custom_components/mitrastar_gpt2541gnac`): a shallow embedding of
`router.py` (SSH session multiplexer and the three output extractors),
`sensor.py` (the speed-sensor rate derivation) and `__init__.py`
(the coordinator update function), together with theorems settling the
specification claims about them.

Modelling conventions:
* Python strings are `List Char`; the regex character classes `\s`, `\d`,
  `\w` are modelled over ASCII (the device transcripts are ASCII).
* Python `dict` is an insertion-ordered association list; `dict[k] = v`
  overwrites in place, a new key is appended.
* Fallible Python operations (`int(..)`, `float(..)`) return `Option`;
  a raised exception is `Except.error`.
* Real arithmetic (time differences, rates) is over `ℚ`.
-/

/-- ASCII model of the regex class `\s` used by `re` (space, tab, newline,
carriage return, vertical tab, form feed). -/
def isSpaceChar (c : Char) : Bool :=
  c.toNat = 32 || c.toNat = 9 || c.toNat = 10 || c.toNat = 13 || c.toNat = 11 || c.toNat = 12

/-- ASCII model of the regex class `\d`. -/
def isDigitChar (c : Char) : Bool :=
  48 ≤ c.toNat && c.toNat ≤ 57

/-- ASCII model of the regex class `\w` (letters, digits, underscore). -/
def isWordChar (c : Char) : Bool :=
  (97 ≤ c.toNat && c.toNat ≤ 122) || (65 ≤ c.toNat && c.toNat ≤ 90) ||
    isDigitChar c || c.toNat = 95

/-- ASCII model of the regex class `\S` (complement of `\s`). -/
def isNonSpaceChar (c : Char) : Bool :=
  !(isSpaceChar c)

/-- Characters of the regex class `[-\d.]` used by the laser extractor. -/
def isFloatTokChar (c : Char) : Bool :=
  c.toNat = 45 || isDigitChar c || c.toNat = 46

/-- Value of a nonempty decimal digit string, as computed by Python `int`. -/
def digitsToNat (ds : List Char) : Nat :=
  ds.foldl (fun a c => 10 * a + (c.toNat - 48)) 0

/-- Greedy match of one or more characters of class `p` (the regex atom
`p+`): returns the maximal nonempty prefix satisfying `p` and the rest.
Because every class boundary in the embedded patterns is between disjoint
character classes, this deterministic maximal munch is equivalent to the
backtracking regex semantics. -/
def munch1 (p : Char → Bool) (cs : List Char) : Option (List Char × List Char) :=
  if (cs.takeWhile p).isEmpty then none
  else some (cs.takeWhile p, cs.dropWhile p)

/-- Match a literal character sequence at the head of the input,
returning the rest. -/
def matchLit : List Char → List Char → Option (List Char)
  | [], cs => some cs
  | _, [] => none
  | l :: ls, c :: cs => if c = l then matchLit ls cs else none

/-- Model of Python `str.split("\n")`. -/
def splitLines : List Char → List (List Char)
  | [] => [[]]
  | c :: rest =>
    match splitLines rest with
    | [] => [[]]
    | l :: ls => if c = '\n' then [] :: l :: ls else (c :: l) :: ls

/-- Python `dict` lookup (`d.get(k)` / `k in d`). -/
def dictGet? {α : Type} (d : List (String × α)) (k : String) : Option α :=
  (d.find? (fun p => p.1 == k)).map Prod.snd

/-- Python `d[k] = v`: overwrite in place when the key exists, else append. -/
def dictInsert {α : Type} (d : List (String × α)) (k : String) (v : α) :
    List (String × α) :=
  if d.any (fun p => p.1 == k) then
    d.map (fun p => if p.1 == k then (k, v) else p)
  else d ++ [(k, v)]

/-- Python `d1.update(d2)`. -/
def dictUpdate {α : Type} (d1 d2 : List (String × α)) : List (String × α) :=
  d2.foldl (fun d p => dictInsert d p.1 p.2) d1

/-- A parsed metric value: Python str, int or float. -/
inductive Value where
  | s (v : String)
  | i (n : Nat)
  | f (q : ℚ)
deriving DecidableEq

/-- The one Python exception the extractors can raise (`ValueError` from a
failed numeric conversion). -/
inductive PyErr where
  | valueError
deriving DecidableEq

/-- Python `int(s)` restricted to the strings the extractors pass to it
(captures of `(\d+)`, so no sign, whitespace or underscores arise). -/
def pyInt? (ds : List Char) : Option Nat :=
  if !ds.isEmpty && ds.all isDigitChar then some (digitsToNat ds) else none

/-- Python `float(s)` restricted to strings over the class `[-\d.]` (the
only strings the laser extractor passes to it): an optional leading sign,
then either `d+`, `d+.d*` or `.d+`; anything else raises `ValueError`. -/
def pyFloat? (cs : List Char) : Option ℚ :=
  let neg : Bool := match cs with | '-' :: _ => true | _ => false
  let cs1 := match cs with | '-' :: t => t | _ => cs
  let ip := cs1.takeWhile isDigitChar
  let cs2 := cs1.dropWhile isDigitChar
  let mag? : Option ℚ :=
    match cs2 with
    | [] => if ip.isEmpty then none else some ((digitsToNat ip : ℚ))
    | '.' :: cs3 =>
      let fp := cs3.takeWhile isDigitChar
      let cs4 := cs3.dropWhile isDigitChar
      if cs4.isEmpty && !(ip.isEmpty && fp.isEmpty) then
        some ((digitsToNat ip : ℚ) + (digitsToNat fp : ℚ) / (10 : ℚ) ^ fp.length)
      else none
    | _ => none
  match mag? with
  | none => none
  | some m => some (if neg then -m else m)

/-- Python's substring test `pat in s`. -/
def containsSub (pat : List Char) : List Char → Bool
  | [] => pat.isEmpty
  | c :: rest => pat.isPrefixOf (c :: rest) || containsSub pat rest

/-- The `rx`/`tx` section toggled by the two counter headers. -/
inductive Dir where
  | rx
  | tx
deriving DecidableEq

/-- Section name as it appears in metric keys. -/
def dirStr : Dir → String
  | .rx => "rx"
  | .tx => "tx"

/-- Captures of the LAN report-line pattern
`\s+(\w+)\s+(Up|Disabled|Down)\s+(\d+)...` (8 numeric groups). -/
structure LanCapture where
  iface : List Char
  status : List Char
  nums : List (List Char)
deriving DecidableEq

/-- Captures of the WAN report-line pattern
`\s+(\S+)\s+(\d+)...` (a VLAN-id group then 8 numeric groups). -/
structure WanCapture where
  iface : List Char
  vlan : List Char
  nums : List (List Char)
deriving DecidableEq

/-- `n` repetitions of the regex fragment `\s+(\d+)`: returns the list of
captured digit runs and the remaining input. -/
def munchNumTokens : Nat → List Char → Option (List (List Char) × List Char)
  | 0, cs => some ([], cs)
  | n + 1, cs =>
    match munch1 isSpaceChar cs with
    | none => none
    | some (_, cs1) =>
      match munch1 isDigitChar cs1 with
      | none => none
      | some (ds, cs2) =>
        match munchNumTokens n cs2 with
        | none => none
        | some (ts, cs3) => some (ds :: ts, cs3)

/-- The alternation `(Up|Disabled|Down)`, alternatives tried left to right
(no two alternatives can match at the same position, so no backtracking
into the alternation is ever needed). -/
def matchStatus (cs : List Char) : Option (List Char × List Char) :=
  match matchLit ("Up".toList) cs with
  | some rest => some ("Up".toList, rest)
  | none =>
    match matchLit ("Disabled".toList) cs with
    | some rest => some ("Disabled".toList, rest)
    | none =>
      match matchLit ("Down".toList) cs with
      | some rest => some ("Down".toList, rest)
      | none => none

/-- `re.match` of the LAN line pattern
`\s+(\w+)\s+(Up|Disabled|Down)\s+(\d+)\s+(\d+)\s+(\d+)\s+(\d+)\s+(\d+)\s+(\d+)\s+(\d+)\s+(\d+)`
(anchored at line start only; trailing input is ignored). -/
def matchLanLine (line : List Char) : Option LanCapture :=
  match munch1 isSpaceChar line with
  | none => none
  | some (_, r1) =>
    match munch1 isWordChar r1 with
    | none => none
    | some (iface, r2) =>
      match munch1 isSpaceChar r2 with
      | none => none
      | some (_, r3) =>
        match matchStatus r3 with
        | none => none
        | some (st, r4) =>
          match munchNumTokens 8 r4 with
          | none => none
          | some (ts, _) => some ⟨iface, st, ts⟩

/-- `re.match` of the WAN line pattern
`\s+(\S+)\s+(\d+)\s+(\d+)\s+(\d+)\s+(\d+)\s+(\d+)\s+(\d+)\s+(\d+)\s+(\d+)\s+(\d+)`
(anchored at line start only; trailing input is ignored). -/
def matchWanLine (line : List Char) : Option WanCapture :=
  match munch1 isSpaceChar line with
  | none => none
  | some (_, r1) =>
    match munch1 isNonSpaceChar r1 with
    | none => none
    | some (iface, r2) =>
      match munchNumTokens 9 r2 with
      | some (v :: ts, _) => some ⟨iface, v, ts⟩
      | _ => none

/-- The nine key/value pairs one matched LAN line inserts, in source
order (`router.py` lines 216-225). -/
def lanGroup (iface : List Char) (d : Dir) (status : List Char)
    (tb tp er dr mb mp uc bc : Nat) : List (String × Value) :=
  let keyPref := "lan_" ++ String.mk iface ++ "_" ++ dirStr d
  [(keyPref ++ "_status", Value.s (String.mk status)),
   (keyPref ++ "_total_bytes", Value.i tb),
   (keyPref ++ "_total_packets", Value.i tp),
   (keyPref ++ "_errors", Value.i er),
   (keyPref ++ "_drops", Value.i dr),
   (keyPref ++ "_multicast_bytes", Value.i mb),
   (keyPref ++ "_multicast_packets", Value.i mp),
   (keyPref ++ "_unicast_packets", Value.i uc),
   (keyPref ++ "_broadcast_packets", Value.i bc)]

/-- The ten key/value pairs one matched WAN line inserts, in source
order (`router.py` lines 260-269); the VLAN id is kept as a string. -/
def wanGroup (iface : List Char) (d : Dir) (vlan : List Char)
    (tb tp er dr mb mp uc bc : Nat) : List (String × Value) :=
  let keyPref := "wan_" ++ String.mk iface ++ "_" ++ dirStr d
  [(keyPref ++ "_vlan_id", Value.s (String.mk vlan)),
   (keyPref ++ "_total_bytes", Value.i tb),
   (keyPref ++ "_total_packets", Value.i tp),
   (keyPref ++ "_errors", Value.i er),
   (keyPref ++ "_drops", Value.i dr),
   (keyPref ++ "_multicast_bytes", Value.i mb),
   (keyPref ++ "_multicast_packets", Value.i mp),
   (keyPref ++ "_unicast_packets", Value.i uc),
   (keyPref ++ "_broadcast_packets", Value.i bc)]

/-- `int()` applied to each captured digit run in order, raising
`ValueError` (modelled as `none`) on the first failure. -/
def pyIntList : List (List Char) → Option (List Nat)
  | [] => some []
  | d :: ds =>
    match pyInt? d with
    | none => none
    | some n =>
      match pyIntList ds with
      | none => none
      | some ns => some (n :: ns)

/-- One iteration of the `_parse_lan_stats` line loop: header lines set the
section; otherwise a line matching the pattern inside a section converts
its eight captures with `int` and stores the nine fields. -/
def lanStepE (st : Option Dir × List (String × Value)) (line : List Char) :
    Except PyErr (Option Dir × List (String × Value)) :=
  if containsSub ("Received Counters:".toList) line then .ok (some .rx, st.2)
  else if containsSub ("Transmitted Counters:".toList) line then .ok (some .tx, st.2)
  else
    match matchLanLine line, st.1 with
    | some cap, some d =>
      match pyIntList cap.nums with
      | none => .error .valueError
      | some [tb, tp, er, dr, mb, mp, uc, bc] =>
        .ok (st.1, dictUpdate st.2 (lanGroup cap.iface d cap.status tb tp er dr mb mp uc bc))
      | some _ => .ok st
    | _, _ => .ok st

/-- One iteration of the `_parse_wan_stats` line loop. -/
def wanStepE (st : Option Dir × List (String × Value)) (line : List Char) :
    Except PyErr (Option Dir × List (String × Value)) :=
  if containsSub ("Received Counters:".toList) line then .ok (some .rx, st.2)
  else if containsSub ("Transmitted Counters:".toList) line then .ok (some .tx, st.2)
  else
    match matchWanLine line, st.1 with
    | some cap, some d =>
      match pyIntList cap.nums with
      | none => .error .valueError
      | some [tb, tp, er, dr, mb, mp, uc, bc] =>
        .ok (st.1, dictUpdate st.2 (wanGroup cap.iface d cap.vlan tb tp er dr mb mp uc bc))
      | some _ => .ok st
    | _, _ => .ok st

/-- Run a line-loop body over a list of lines, propagating a raised
exception. -/
def runLines {σ : Type} (step : σ → List Char → Except PyErr σ) :
    σ → List (List Char) → Except PyErr σ
  | st, [] => .ok st
  | st, l :: ls =>
    match step st l with
    | .error e => .error e
    | .ok st1 => runLines step st1 ls

/-- `MitrastarRouter._parse_lan_stats` (router.py lines 185-227). -/
def parse_lan_stats (output : List Char) : Except PyErr (List (String × Value)) :=
  match runLines lanStepE ((none : Option Dir), ([] : List (String × Value))) (splitLines output) with
  | .error e => .error e
  | .ok st => .ok st.2

/-- `MitrastarRouter._parse_wan_stats` (router.py lines 229-271). -/
def parse_wan_stats (output : List Char) : Except PyErr (List (String × Value)) :=
  match runLines wanStepE ((none : Option Dir), ([] : List (String × Value))) (splitLines output) with
  | .error e => .error e
  | .ok st => .ok st.2

/-- One attempt of the laser pattern
`<label>\s+=\s+([-\d.]+)\s+<unit>` anchored at the current position:
returns the captured `[-\d.]+` run on success. -/
def tryLaserAt (label unit : List Char) (cs : List Char) : Option (List Char) :=
  match matchLit label cs with
  | none => none
  | some r1 =>
    match munch1 isSpaceChar r1 with
    | none => none
    | some (_, r2) =>
      match matchLit ['='] r2 with
      | none => none
      | some r3 =>
        match munch1 isSpaceChar r3 with
        | none => none
        | some (_, r4) =>
          match munch1 isFloatTokChar r4 with
          | none => none
          | some (tok, r5) =>
            match munch1 isSpaceChar r5 with
            | none => none
            | some (_, r6) =>
              match matchLit unit r6 with
              | none => none
              | some _ => some tok

/-- `re.search` of the laser pattern: leftmost match over the input. -/
def searchLaser (label unit : List Char) : List Char → Option (List Char)
  | [] => tryLaserAt label unit []
  | c :: rest =>
    match tryLaserAt label unit (c :: rest) with
    | some tok => some tok
    | none => searchLaser label unit rest

/-- One `if <search>: data[key] = float(group(1))` block of
`_parse_laser_stats`: absent pattern contributes nothing; a matched
pattern whose token is not a valid float literal raises `ValueError`. -/
def laserField (key : String) (label unit : List Char) (out : List Char)
    (d : List (String × Value)) : Except PyErr (List (String × Value)) :=
  match searchLaser label unit out with
  | none => .ok d
  | some tok =>
    match pyFloat? tok with
    | none => .error .valueError
    | some q => .ok (dictInsert d key (Value.f q))

/-- The five (key, label, unit) triples of `_parse_laser_stats`, in source
order (router.py lines 278-299). -/
def laserPatterns : List (String × List Char × List Char) :=
  [("laser_rx_power", "Rx Optical Power".toList, "dBm".toList),
   ("laser_tx_power", "Tx Optical Power".toList, "dBm".toList),
   ("laser_bias_current", "Tx Bias Current".toList, "mA".toList),
   ("laser_voltage", "Supply voltage".toList, "V".toList),
   ("laser_temperature", "SFF Temperature".toList, "C".toList)]

/-- `MitrastarRouter._parse_laser_stats` (router.py lines 273-301): the
five lookups run in source order; a raised `ValueError` propagates. -/
def parse_laser_stats (output : List Char) : Except PyErr (List (String × Value)) :=
  match laserField "laser_rx_power" "Rx Optical Power".toList "dBm".toList output [] with
  | .error e => .error e
  | .ok d1 =>
    match laserField "laser_tx_power" "Tx Optical Power".toList "dBm".toList output d1 with
    | .error e => .error e
    | .ok d2 =>
      match laserField "laser_bias_current" "Tx Bias Current".toList "mA".toList output d2 with
      | .error e => .error e
      | .ok d3 =>
        match laserField "laser_voltage" "Supply voltage".toList "V".toList output d3 with
        | .error e => .error e
        | .ok d4 =>
          match laserField "laser_temperature" "SFF Temperature".toList "C".toList output d4 with
          | .error e => .error e
          | .ok d5 => .ok d5

/-- Connection-level SSH failures (`asyncio.TimeoutError` on the session,
`asyncssh.Error` during handshake or mid-session I/O). -/
inductive SshError where
  | timeout
  | transport
  | session
deriving DecidableEq

/-- Environment behaviour for one command of a session: whether the
`stdin.write`/`drain` raises, and what the timed `stdout.read` yields
(`none` models an `asyncio.TimeoutError`, after which `output` keeps its
initial value `""`). -/
structure CmdEvent where
  writeErr : Option SshError
  readResult : Option String
deriving DecidableEq

/-- Text recorded for one command: the read result, or `""` when the read
timed out (router.py lines 113-119). -/
def captureOf (ev : CmdEvent) : String :=
  match ev.readResult with
  | some s => s
  | none => ""

/-- The `for command in commands` loop of `_execute_multiple_commands`:
a failing write raises out of the loop; a read timeout is logged and the
(empty) output is still recorded. -/
def execLoop : List (String × CmdEvent) → List (String × String) →
    Except SshError (List (String × String))
  | [], acc => .ok acc
  | (c, ev) :: rest, acc =>
    match ev.writeErr with
    | some e => .error e
    | none => execLoop rest (dictInsert acc c (captureOf ev))

/-- `MitrastarRouter._execute_multiple_commands` (router.py lines 79-139):
a connect-phase failure or a raised write aborts the session and
propagates; otherwise every command's capture is returned. -/
def execute_multiple_commands (connectErr : Option SshError)
    (session : List (String × CmdEvent)) : Except SshError (List (String × String)) :=
  match connectErr with
  | some e => .error e
  | none => execLoop session []

/-- The fixed command list issued by `get_all_data` (router.py line 309). -/
def cmdList : List String := ["showlanstats", "showwanstats", "lasercheck"]

/-- `MitrastarRouter.get_all_data` (router.py lines 303-334): the whole
body sits in `try: ... except Exception: log`, so a session error or a
parse error is swallowed and whatever was accumulated in `all_data` up to
that point is returned. -/
def get_all_data (connectErr : Option SshError) (events : List CmdEvent) :
    List (String × Value) :=
  match execute_multiple_commands connectErr (cmdList.zip events) with
  | .error _ => []
  | .ok results =>
    let a0 : List (String × Value) := []
    let r1 : Except PyErr (List (String × Value)) :=
      match dictGet? results "showlanstats" with
      | none => .ok a0
      | some out =>
        match parse_lan_stats out.toList with
        | .error e => .error e
        | .ok lan => .ok (dictUpdate a0 lan)
    match r1 with
    | .error _ => a0
    | .ok a1 =>
      let r2 : Except PyErr (List (String × Value)) :=
        match dictGet? results "showwanstats" with
        | none => .ok a1
        | some out =>
          match parse_wan_stats out.toList with
          | .error e => .error e
          | .ok wan => .ok (dictUpdate a1 wan)
      match r2 with
      | .error _ => a1
      | .ok a2 =>
        let r3 : Except PyErr (List (String × Value)) :=
          match dictGet? results "lasercheck" with
          | none => .ok a2
          | some out =>
            match parse_laser_stats out.toList with
            | .error e => .error e
            | .ok las => .ok (dictUpdate a2 las)
        match r3 with
        | .error _ => a2
        | .ok a3 => a3

/-- `async_update_data` (`__init__.py` lines 33-38): wraps `get_all_data`
and re-raises any exception as `UpdateFailed`; since `get_all_data`
catches every exception internally and returns a dict, the wrapper always
reports success. -/
def async_update_data (connectErr : Option SshError) (events : List CmdEvent) :
    Except String (List (String × Value)) :=
  .ok (get_all_data connectErr events)

/-- State retained by one `MitrastarSpeedSensor` between polls:
`_last_value`, `_last_update`, and the `_cached_speed` attribute (absent
until the first full rate computation). -/
structure SpeedState where
  last_value : Option ℚ
  last_update : Option ℚ
  cached_speed : Option ℚ
deriving DecidableEq

/-- Python `round(x)` to an integer: round half to even. -/
def pyRound0 (x : ℚ) : ℤ :=
  let f := ⌊x⌋
  let r := x - (f : ℚ)
  if r < 1 / 2 then f
  else if 1 / 2 < r then f + 1
  else if f % 2 = 0 then f else f + 1

/-- Python `round(x, 2)`. -/
def round2 (x : ℚ) : ℚ :=
  (pyRound0 (x * 100) : ℚ) / 100

/-- `MitrastarSpeedSensor.native_value` (sensor.py lines 331-372), given
the current counter value `v` for the tracked key. Each entry of `clock`
is one `datetime.now()` reading; the `time_diff <= 0` branch with
`_cached_speed` present evaluates `self.native_value` recursively, which
reads the clock again — `fuel` bounds that recursion and `none` models a
computation that needs more clock readings than supplied. Returns the
updated sensor state and the value produced. -/
def native_value : Nat → List ℚ → SpeedState → ℚ → Option (SpeedState × ℚ)
  | 0, _, _, _ => none
  | _ + 1, [], _, _ => none
  | fuel + 1, t :: clock, st, v =>
    match st.last_value, st.last_update with
    | some lv, some lu =>
      let timeDiff := t - lu
      if timeDiff ≤ 0 then
        match st.cached_speed with
        | some _ => native_value fuel clock st v
        | none => some (st, 0)
      else
        let valueDiff := v - lv
        if valueDiff < 0 then
          some ({ last_value := some v, last_update := some t,
                  cached_speed := st.cached_speed }, 0)
        else
          let speed := valueDiff / timeDiff
          let r := round2 speed
          some ({ last_value := some v, last_update := some t,
                  cached_speed := some r }, r)
    | _, _ =>
      some ({ last_value := some v, last_update := some t,
              cached_speed := st.cached_speed }, 0)

/-! ### Character-class facts -/

theorem digit_not_space {c : Char} (h : isDigitChar c = true) : isSpaceChar c = false := by
  simp only [isDigitChar, Bool.and_eq_true, decide_eq_true_eq] at h
  simp only [isSpaceChar, Bool.or_eq_false_iff, decide_eq_false_iff_not]
  omega

theorem word_not_space {c : Char} (h : isWordChar c = true) : isSpaceChar c = false := by
  simp only [isWordChar, isDigitChar, Bool.or_eq_true, Bool.and_eq_true,
    decide_eq_true_eq] at h
  simp only [isSpaceChar, Bool.or_eq_false_iff, decide_eq_false_iff_not]
  omega

theorem space_not_word {c : Char} (h : isSpaceChar c = true) : isWordChar c = false := by
  simp only [isSpaceChar, Bool.or_eq_true, decide_eq_true_eq] at h
  simp only [isWordChar, isDigitChar, Bool.or_eq_false_iff, Bool.and_eq_false_iff,
    decide_eq_false_iff_not]
  omega

theorem space_not_digit {c : Char} (h : isSpaceChar c = true) : isDigitChar c = false := by
  simp only [isSpaceChar, Bool.or_eq_true, decide_eq_true_eq] at h
  simp only [isDigitChar, Bool.and_eq_false_iff, decide_eq_false_iff_not]
  omega

theorem space_is_not_nonspace {c : Char} (h : isSpaceChar c = true) :
    isNonSpaceChar c = false := by
  simp [isNonSpaceChar, h]

theorem digit_is_word {c : Char} (h : isDigitChar c = true) : isWordChar c = true := by
  simp [isWordChar, h]

theorem digit_is_nonspace {c : Char} (h : isDigitChar c = true) :
    isNonSpaceChar c = true := by
  simp [isNonSpaceChar, digit_not_space h]

/-! ### Tokenizer helper lemmas -/

theorem takeWhile_all_append {p : Char → Bool} :
    ∀ (a b : List Char), (∀ c ∈ a, p c = true) →
      (∀ c, b.head? = some c → p c = false) →
      (a ++ b).takeWhile p = a ∧ (a ++ b).dropWhile p = b := by
  intro a
  induction a with
  | nil =>
    intro b _ hb
    cases b with
    | nil => simp
    | cons c t =>
      have hc : p c = false := hb c rfl
      simp [List.takeWhile_cons, List.dropWhile_cons, hc]
  | cons x a ih =>
    intro b ha hb
    have hx : p x = true := ha x (by simp)
    have h' := ih b (fun c hc => ha c (by simp [hc])) hb
    simp [List.takeWhile_cons, List.dropWhile_cons, hx, h'.1, h'.2]

theorem munch1_spec {p : Char → Bool} (a b : List Char) (ha : a ≠ [])
    (hall : ∀ c ∈ a, p c = true) (hb : ∀ c, b.head? = some c → p c = false) :
    munch1 p (a ++ b) = some (a, b) := by
  have h := takeWhile_all_append a b hall hb
  unfold munch1
  rw [h.1, h.2]
  simp [List.isEmpty_iff, ha]

theorem munch1_sound {p : Char → Bool} {cs tk rest : List Char}
    (h : munch1 p cs = some (tk, rest)) :
    tk ≠ [] ∧ (∀ c ∈ tk, p c = true) := by
  unfold munch1 at h
  cases he : (cs.takeWhile p).isEmpty with
  | true => rw [he] at h; simp at h
  | false =>
    rw [he] at h
    simp only [Bool.false_eq_true, if_false, Option.some.injEq, Prod.mk.injEq] at h
    obtain ⟨h1, _⟩ := h
    subst h1
    constructor
    · intro hn
      rw [hn] at he
      simp at he
    · intro c hc
      exact List.mem_takeWhile_imp hc

theorem matchLit_self_append : ∀ (lit rest : List Char),
    matchLit lit (lit ++ rest) = some rest := by
  intro lit
  induction lit with
  | nil => intro rest; simp [matchLit]
  | cons x l ih => intro rest; simp [matchLit, ih]

theorem head_all_append {p q : Char → Bool} (x y : List Char) (hx : x ≠ [])
    (hall : ∀ c ∈ x, q c = true) (himp : ∀ c, q c = true → p c = false) :
    ∀ c, (x ++ y).head? = some c → p c = false := by
  cases x with
  | nil => exact absurd rfl hx
  | cons a t =>
    intro c hc
    simp only [List.cons_append, List.head?_cons, Option.some.injEq] at hc
    subst hc
    exact himp a (hall a (by simp))

/-! ### splitLines lemmas -/

theorem splitLines_no_newline : ∀ (l : List Char), '\n' ∉ l → splitLines l = [l] := by
  intro l
  induction l with
  | nil => intro _; rfl
  | cons c t ih =>
    intro h
    have hc : c ≠ '\n' := fun he => h (by simp [he])
    have ht : '\n' ∉ t := fun he => h (by simp [he])
    simp [splitLines, ih ht, hc]

theorem splitLines_ne_nil : ∀ (l : List Char), splitLines l ≠ [] := by
  intro l
  induction l with
  | nil => simp [splitLines]
  | cons c t ih =>
    cases ht : splitLines t with
    | nil => exact absurd ht ih
    | cons x xs =>
      simp only [splitLines, ht]
      split <;> simp

theorem splitLines_append_newline : ∀ (a b : List Char), '\n' ∉ a →
    splitLines (a ++ '\n' :: b) = a :: splitLines b := by
  intro a
  induction a with
  | nil =>
    intro b _
    show splitLines ('\n' :: b) = [] :: splitLines b
    cases ht : splitLines b with
    | nil => exact absurd ht (splitLines_ne_nil b)
    | cons l ls => simp [splitLines, ht]
  | cons c t ih =>
    intro b h
    have hc : c ≠ '\n' := fun he => h (by simp [he])
    have ht : '\n' ∉ t := fun he => h (by simp [he])
    show splitLines (c :: (t ++ '\n' :: b)) = (c :: t) :: splitLines b
    rw [splitLines, ih b ht]
    simp [hc]

theorem nonspace_not_space {c : Char} (h : isNonSpaceChar c = true) :
    isSpaceChar c = false := by
  simpa [isNonSpaceChar] using h

/-- A well-formed `\s+(\d+)` token of a report line: nonempty whitespace
(with no embedded newline, since the line loop runs on split lines),
then a nonempty digit run. -/
def GoodTok (t : List Char × List Char) : Prop :=
  t.1 ≠ [] ∧ (∀ c ∈ t.1, isSpaceChar c = true ∧ c ≠ '\n') ∧
    t.2 ≠ [] ∧ (∀ c ∈ t.2, isDigitChar c = true)

instance : DecidablePred GoodTok := fun t => by
  unfold GoodTok
  infer_instance

/-- Concatenation of `\s+(\d+)` tokens, right-nested. -/
def tokensJoin : List (List Char × List Char) → List Char
  | [] => []
  | t :: ts => t.1 ++ (t.2 ++ tokensJoin ts)

theorem tokensJoin_head_not_digit (toks : List (List Char × List Char))
    (rest : List Char) (htoks : ∀ t ∈ toks, GoodTok t)
    (hrest : ∀ c, rest.head? = some c → isDigitChar c = false) :
    ∀ c, (tokensJoin toks ++ rest).head? = some c → isDigitChar c = false := by
  cases toks with
  | nil => simpa [tokensJoin] using hrest
  | cons t ts =>
    obtain ⟨hws, hwsall, _, _⟩ := htoks t (by simp)
    have : tokensJoin (t :: ts) ++ rest = t.1 ++ (t.2 ++ tokensJoin ts ++ rest) := by
      simp [tokensJoin, List.append_assoc]
    rw [this]
    exact head_all_append t.1 _ hws (fun c hc => (hwsall c hc).1)
      (fun c h => space_not_digit h)

theorem munchNumTokens_spec : ∀ (toks : List (List Char × List Char)) (rest : List Char),
    (∀ t ∈ toks, GoodTok t) →
    (∀ c, rest.head? = some c → isDigitChar c = false) →
    munchNumTokens toks.length (tokensJoin toks ++ rest) =
      some (toks.map Prod.snd, rest) := by
  intro toks
  induction toks with
  | nil =>
    intro rest _ _
    simp [munchNumTokens, tokensJoin]
  | cons t ts ih =>
    intro rest htoks hrest
    obtain ⟨hws, hwsall, hds, hdsall⟩ := htoks t (by simp)
    have hts : ∀ x ∈ ts, GoodTok x := fun x hx => htoks x (by simp [hx])
    have h1 : munch1 isSpaceChar (t.1 ++ (t.2 ++ (tokensJoin ts ++ rest))) =
        some (t.1, t.2 ++ (tokensJoin ts ++ rest)) :=
      munch1_spec _ _ hws (fun c hc => (hwsall c hc).1)
        (head_all_append t.2 _ hds hdsall (fun c h => digit_not_space h))
    have h2 : munch1 isDigitChar (t.2 ++ (tokensJoin ts ++ rest)) =
        some (t.2, tokensJoin ts ++ rest) :=
      munch1_spec _ _ hds hdsall (tokensJoin_head_not_digit ts rest hts hrest)
    have h3 := ih rest hts hrest
    have hjoin : tokensJoin (t :: ts) ++ rest = t.1 ++ (t.2 ++ (tokensJoin ts ++ rest)) := by
      simp [tokensJoin, List.append_assoc]
    rw [List.length_cons, hjoin]
    simp only [munchNumTokens, h1, h2, h3, List.map_cons]

theorem matchStatus_spec (status : String)
    (hst : status = "Up" ∨ status = "Disabled" ∨ status = "Down")
    (rest : List Char) :
    matchStatus (status.toList ++ rest) = some (status.toList, rest) := by
  rcases hst with h | h | h <;> subst h <;>
    simp [matchStatus, matchLit_self_append, matchLit, String.toList]

theorem matchLanLine_spec (ws0 iface ws1 : List Char) (status : String)
    (toks : List (List Char × List Char)) (rest : List Char)
    (h0 : ws0 ≠ []) (h0s : ∀ c ∈ ws0, isSpaceChar c = true)
    (h1 : iface ≠ []) (h1w : ∀ c ∈ iface, isWordChar c = true)
    (h2 : ws1 ≠ []) (h2s : ∀ c ∈ ws1, isSpaceChar c = true)
    (hst : status = "Up" ∨ status = "Disabled" ∨ status = "Down")
    (htoks : ∀ t ∈ toks, GoodTok t) (hlen : toks.length = 8)
    (hrest : ∀ c, rest.head? = some c → isDigitChar c = false) :
    matchLanLine (ws0 ++ (iface ++ (ws1 ++ (status.toList ++ (tokensJoin toks ++ rest))))) =
      some ⟨iface, status.toList, toks.map Prod.snd⟩ := by
  have hstne : status.toList ≠ [] := by
    rcases hst with h | h | h <;> subst h <;> decide
  have hstw : ∀ c ∈ status.toList, isWordChar c = true := by
    rcases hst with h | h | h <;> subst h <;> decide
  have ha : munch1 isSpaceChar
      (ws0 ++ (iface ++ (ws1 ++ (status.toList ++ (tokensJoin toks ++ rest))))) =
      some (ws0, iface ++ (ws1 ++ (status.toList ++ (tokensJoin toks ++ rest)))) :=
    munch1_spec _ _ h0 h0s
      (head_all_append iface _ h1 h1w (fun c h => word_not_space h))
  have hb : munch1 isWordChar
      (iface ++ (ws1 ++ (status.toList ++ (tokensJoin toks ++ rest)))) =
      some (iface, ws1 ++ (status.toList ++ (tokensJoin toks ++ rest))) :=
    munch1_spec _ _ h1 h1w
      (head_all_append ws1 _ h2 h2s (fun c h => space_not_word h))
  have hc : munch1 isSpaceChar (ws1 ++ (status.toList ++ (tokensJoin toks ++ rest))) =
      some (ws1, status.toList ++ (tokensJoin toks ++ rest)) :=
    munch1_spec _ _ h2 h2s
      (head_all_append status.toList _ hstne hstw (fun c h => word_not_space h))
  have hd : matchStatus (status.toList ++ (tokensJoin toks ++ rest)) =
      some (status.toList, tokensJoin toks ++ rest) :=
    matchStatus_spec status hst _
  have he : munchNumTokens 8 (tokensJoin toks ++ rest) = some (toks.map Prod.snd, rest) :=
    hlen ▸ munchNumTokens_spec toks rest htoks hrest
  simp only [matchLanLine, ha, hb, hc, hd, he]

theorem matchWanLine_spec (ws0 iface : List Char) (vt : List Char × List Char)
    (toks : List (List Char × List Char)) (rest : List Char)
    (h0 : ws0 ≠ []) (h0s : ∀ c ∈ ws0, isSpaceChar c = true)
    (h1 : iface ≠ []) (h1n : ∀ c ∈ iface, isNonSpaceChar c = true)
    (hvt : GoodTok vt) (htoks : ∀ t ∈ toks, GoodTok t) (hlen : toks.length = 8)
    (hrest : ∀ c, rest.head? = some c → isDigitChar c = false) :
    matchWanLine (ws0 ++ (iface ++ (tokensJoin (vt :: toks) ++ rest))) =
      some ⟨iface, vt.2, toks.map Prod.snd⟩ := by
  have hvtall : ∀ t ∈ vt :: toks, GoodTok t := by
    intro t ht
    rcases List.mem_cons.mp ht with h | h
    · exact h ▸ hvt
    · exact htoks t h
  have ha : munch1 isSpaceChar (ws0 ++ (iface ++ (tokensJoin (vt :: toks) ++ rest))) =
      some (ws0, iface ++ (tokensJoin (vt :: toks) ++ rest)) :=
    munch1_spec _ _ h0 h0s
      (head_all_append iface _ h1 h1n (fun c h => nonspace_not_space h))
  have hb : munch1 isNonSpaceChar (iface ++ (tokensJoin (vt :: toks) ++ rest)) =
      some (iface, tokensJoin (vt :: toks) ++ rest) := by
    refine munch1_spec _ _ h1 h1n ?_
    have hjoin : tokensJoin (vt :: toks) ++ rest = vt.1 ++ (vt.2 ++ tokensJoin toks ++ rest) := by
      simp [tokensJoin, List.append_assoc]
    rw [hjoin]
    exact head_all_append vt.1 _ hvt.1 (fun c hc => (hvt.2.1 c hc).1)
      (fun c h => space_is_not_nonspace h)
  have hc : munchNumTokens 9 (tokensJoin (vt :: toks) ++ rest) =
      some ((vt :: toks).map Prod.snd, rest) := by
    have h9 : (vt :: toks).length = 9 := by simp [hlen]
    exact h9 ▸ munchNumTokens_spec (vt :: toks) rest hvtall hrest
  simp only [matchWanLine, ha, hb, hc, List.map_cons]

/-! ### Dictionary lemmas -/

theorem dictInsert_new {α : Type} (d : List (String × α)) (k : String) (v : α)
    (h : ∀ p ∈ d, p.1 ≠ k) : dictInsert d k v = d ++ [(k, v)] := by
  unfold dictInsert
  have hany : d.any (fun p => p.1 == k) = false := by
    simp only [List.any_eq_false]
    intro p hp
    simp [h p hp]
  simp [hany]

theorem dictUpdate_fresh {α : Type} : ∀ (g d : List (String × α)),
    (∀ p ∈ g, ∀ q ∈ d, q.1 ≠ p.1) → (g.map Prod.fst).Nodup →
    dictUpdate d g = d ++ g := by
  intro g
  induction g with
  | nil => intro d _ _; simp [dictUpdate]
  | cons p g ih =>
    intro d hfresh hnodup
    have hp : ∀ q ∈ d, q.1 ≠ p.1 := hfresh p (by simp)
    have hnodup2 : (p.1 :: g.map Prod.fst).Nodup := by
      simpa only [List.map_cons] using hnodup
    have hnd := List.nodup_cons.mp hnodup2
    have step : dictInsert d p.1 p.2 = d ++ [p] := dictInsert_new d p.1 p.2 hp
    have hff : ∀ x ∈ g, ∀ q ∈ d ++ [p], q.1 ≠ x.1 := by
      intro x hx q hq
      rcases List.mem_append.mp hq with hqd | hqp
      · exact hfresh x (by simp [hx]) q hqd
      · have hqp2 : q = p := by simpa using hqp
        subst hqp2
        intro he
        exact hnd.1 (he ▸ List.mem_map_of_mem Prod.fst hx)
    have h2 : dictUpdate d (p :: g) = dictUpdate (d ++ [p]) g := by
      simp [dictUpdate, step]
    rw [h2, ih (d ++ [p]) hff hnd.2]
    simp

theorem string_data_append (s t : String) : (s ++ t).data = s.data ++ t.data := rfl

theorem append_ne_append_right {a b : String} (pre : String) (h : a ≠ b) :
    pre ++ a ≠ pre ++ b := by
  intro he
  apply h
  have hd : pre.data ++ a.data = pre.data ++ b.data := by
    rw [← string_data_append, ← string_data_append, he]
  have : a.data = b.data := by
    exact List.append_cancel_left hd
  cases a
  cases b
  exact congrArg String.mk this

theorem append_left_injective (pre : String) :
    Function.Injective (fun s => pre ++ s) := by
  intro a b h
  by_contra hne
  exact append_ne_append_right pre hne h

theorem pyInt?_digits {x : List Char} (hne : x ≠ [])
    (hd : ∀ c ∈ x, isDigitChar c = true) :
    pyInt? x = some (digitsToNat x) := by
  unfold pyInt?
  have h1 : x.isEmpty = false := by
    cases x with
    | nil => exact absurd rfl hne
    | cons a t => rfl
  have h2 : x.all isDigitChar = true := by
    simpa [List.all_eq_true] using hd
  simp [h1, h2]

/-! ### Substring / header lemmas -/

theorem mem_of_isPrefixOf : ∀ (pat l : List Char), pat.isPrefixOf l = true →
    ∀ x ∈ pat, x ∈ l := by
  intro pat
  induction pat with
  | nil => simp
  | cons p ps ih =>
    intro l h x hx
    cases l with
    | nil => simp [List.isPrefixOf] at h
    | cons c cs =>
      simp only [List.isPrefixOf, Bool.and_eq_true, beq_iff_eq] at h
      rcases List.mem_cons.mp hx with hxp | hxs
      · subst hxp
        simp [h.1]
      · exact List.mem_cons_of_mem c (ih cs h.2 x hxs)

theorem containsSub_false_of_missing {c0 : Char} (pat l : List Char)
    (hc0 : c0 ∈ pat) (hl : c0 ∉ l) : containsSub pat l = false := by
  induction l with
  | nil =>
    cases pat with
    | nil => simp at hc0
    | cons a t => simp [containsSub]
  | cons c rest ih =>
    simp only [containsSub, Bool.or_eq_false_iff]
    constructor
    · cases hp : pat.isPrefixOf (c :: rest) with
      | false => rfl
      | true => exact absurd (mem_of_isPrefixOf pat (c :: rest) hp c0 hc0) hl
    · exact ih (fun h => hl (List.mem_cons_of_mem c h))

theorem mem_tokensJoin {c : Char} : ∀ (toks : List (List Char × List Char)),
    (∀ t ∈ toks, GoodTok t) → c ∈ tokensJoin toks →
    (isSpaceChar c = true ∧ c ≠ '\n') ∨ isDigitChar c = true := by
  intro toks
  induction toks with
  | nil => simp [tokensJoin]
  | cons t ts ih =>
    intro hg hc
    simp only [tokensJoin, List.mem_append] at hc
    obtain ⟨_, hws, _, hds⟩ := hg t (by simp)
    rcases hc with h | h | h
    · exact Or.inl (hws c h)
    · exact Or.inr (hds c h)
    · exact ih (fun x hx => hg x (by simp [hx])) h

/-! ### Key-group lemmas -/

def lanSuffixes : List String :=
  ["_status", "_total_bytes", "_total_packets", "_errors", "_drops",
   "_multicast_bytes", "_multicast_packets", "_unicast_packets", "_broadcast_packets"]

def wanSuffixes : List String :=
  ["_vlan_id", "_total_bytes", "_total_packets", "_errors", "_drops",
   "_multicast_bytes", "_multicast_packets", "_unicast_packets", "_broadcast_packets"]

theorem lanGroup_keys (iface : List Char) (d : Dir) (status : List Char)
    (tb tp er dr mb mp uc bc : Nat) :
    (lanGroup iface d status tb tp er dr mb mp uc bc).map Prod.fst =
      lanSuffixes.map (fun s => ("lan_" ++ String.mk iface ++ "_" ++ dirStr d) ++ s) := rfl

theorem wanGroup_keys (iface : List Char) (d : Dir) (vlan : List Char)
    (tb tp er dr mb mp uc bc : Nat) :
    (wanGroup iface d vlan tb tp er dr mb mp uc bc).map Prod.fst =
      wanSuffixes.map (fun s => ("wan_" ++ String.mk iface ++ "_" ++ dirStr d) ++ s) := rfl

theorem lanGroup_keys_nodup (iface : List Char) (d : Dir) (status : List Char)
    (tb tp er dr mb mp uc bc : Nat) :
    ((lanGroup iface d status tb tp er dr mb mp uc bc).map Prod.fst).Nodup := by
  rw [lanGroup_keys]
  exact List.Nodup.map (append_left_injective _) (by decide)

theorem wanGroup_keys_nodup (iface : List Char) (d : Dir) (vlan : List Char)
    (tb tp er dr mb mp uc bc : Nat) :
    ((wanGroup iface d vlan tb tp er dr mb mp uc bc).map Prod.fst).Nodup := by
  rw [wanGroup_keys]
  exact List.Nodup.map (append_left_injective _) (by decide)

theorem dictUpdate_nil_lanGroup (iface : List Char) (d : Dir) (status : List Char)
    (tb tp er dr mb mp uc bc : Nat) :
    dictUpdate [] (lanGroup iface d status tb tp er dr mb mp uc bc) =
      lanGroup iface d status tb tp er dr mb mp uc bc := by
  have h := dictUpdate_fresh (lanGroup iface d status tb tp er dr mb mp uc bc) []
    (by simp) (lanGroup_keys_nodup iface d status tb tp er dr mb mp uc bc)
  simpa using h

/-! ### Step-function lemmas -/

theorem lanStepE_match (d : Dir) (data : List (String × Value)) (line : List Char)
    (hR : containsSub ("Received Counters:".toList) line = false)
    (hT : containsSub ("Transmitted Counters:".toList) line = false)
    (iface status d1 d2 d3 d4 d5 d6 d7 d8 : List Char)
    (hm : matchLanLine line = some ⟨iface, status, [d1, d2, d3, d4, d5, d6, d7, d8]⟩)
    (hd : ∀ x ∈ [d1, d2, d3, d4, d5, d6, d7, d8],
      x ≠ [] ∧ ∀ c ∈ x, isDigitChar c = true) :
    lanStepE (some d, data) line =
      .ok (some d, dictUpdate data (lanGroup iface d status (digitsToNat d1)
        (digitsToNat d2) (digitsToNat d3) (digitsToNat d4) (digitsToNat d5)
        (digitsToNat d6) (digitsToNat d7) (digitsToNat d8))) := by
  have hint : ∀ x ∈ [d1, d2, d3, d4, d5, d6, d7, d8],
      pyInt? x = some (digitsToNat x) := by
    intro x hx
    exact pyInt?_digits (hd x hx).1 (hd x hx).2
  have hlist : pyIntList [d1, d2, d3, d4, d5, d6, d7, d8] =
      some [digitsToNat d1, digitsToNat d2, digitsToNat d3, digitsToNat d4,
        digitsToNat d5, digitsToNat d6, digitsToNat d7, digitsToNat d8] := by
    simp only [pyIntList, hint d1 (by simp), hint d2 (by simp), hint d3 (by simp),
      hint d4 (by simp), hint d5 (by simp), hint d6 (by simp), hint d7 (by simp),
      hint d8 (by simp)]
  simp only [lanStepE, hR, hT, Bool.false_eq_true, if_false, hm, hlist]

theorem wanStepE_match (d : Dir) (data : List (String × Value)) (line : List Char)
    (hR : containsSub ("Received Counters:".toList) line = false)
    (hT : containsSub ("Transmitted Counters:".toList) line = false)
    (iface vl d1 d2 d3 d4 d5 d6 d7 d8 : List Char)
    (hm : matchWanLine line = some ⟨iface, vl, [d1, d2, d3, d4, d5, d6, d7, d8]⟩)
    (hd : ∀ x ∈ [d1, d2, d3, d4, d5, d6, d7, d8],
      x ≠ [] ∧ ∀ c ∈ x, isDigitChar c = true) :
    wanStepE (some d, data) line =
      .ok (some d, dictUpdate data (wanGroup iface d vl (digitsToNat d1)
        (digitsToNat d2) (digitsToNat d3) (digitsToNat d4) (digitsToNat d5)
        (digitsToNat d6) (digitsToNat d7) (digitsToNat d8))) := by
  have hint : ∀ x ∈ [d1, d2, d3, d4, d5, d6, d7, d8],
      pyInt? x = some (digitsToNat x) := by
    intro x hx
    exact pyInt?_digits (hd x hx).1 (hd x hx).2
  have hlist : pyIntList [d1, d2, d3, d4, d5, d6, d7, d8] =
      some [digitsToNat d1, digitsToNat d2, digitsToNat d3, digitsToNat d4,
        digitsToNat d5, digitsToNat d6, digitsToNat d7, digitsToNat d8] := by
    simp only [pyIntList, hint d1 (by simp), hint d2 (by simp), hint d3 (by simp),
      hint d4 (by simp), hint d5 (by simp), hint d6 (by simp), hint d7 (by simp),
      hint d8 (by simp)]
  simp only [wanStepE, hR, hT, Bool.false_eq_true, if_false, hm, hlist]

theorem GoodTok.digits {t : List Char × List Char} (h : GoodTok t) :
    t.2 ≠ [] ∧ ∀ c ∈ t.2, isDigitChar c = true :=
  ⟨h.2.2.1, h.2.2.2⟩

/-- Header line that toggles the section to `d`
(router.py lines 192-197). -/
def headerOf : Dir → List Char
  | .rx => "Received Counters:".toList
  | .tx => "Transmitted Counters:".toList

/-- C4: for every well-formed LAN report line (leading whitespace, a word
interface name, a status token `Up`/`Disabled`/`Down`, then eight
whitespace-separated integers) appearing after a `Received Counters:` or
`Transmitted Counters:` header, `_parse_lan_stats` emits exactly the
status field plus the eight numeric fields under the
`lan_{interface}_{section}_{field}` key scheme, with the section (`rx` or
`tx`) determined by the header. -/
theorem c4_lan_wellformed_line_full_group
    (d : Dir) (ws0 iface ws1 : List Char) (status : String)
    (t1 t2 t3 t4 t5 t6 t7 t8 : List Char × List Char)
    (h0 : ws0 ≠ []) (h0s : ∀ c ∈ ws0, isSpaceChar c = true ∧ c ≠ '\n')
    (h1 : iface ≠ []) (h1w : ∀ c ∈ iface, isWordChar c = true)
    (h2 : ws1 ≠ []) (h2s : ∀ c ∈ ws1, isSpaceChar c = true ∧ c ≠ '\n')
    (hst : status = "Up" ∨ status = "Disabled" ∨ status = "Down")
    (ht : ∀ t ∈ [t1, t2, t3, t4, t5, t6, t7, t8], GoodTok t) :
    parse_lan_stats (headerOf d ++ '\n' ::
        (ws0 ++ (iface ++ (ws1 ++ (status.toList ++
          tokensJoin [t1, t2, t3, t4, t5, t6, t7, t8]))))) =
      .ok (lanGroup iface d status.toList (digitsToNat t1.2) (digitsToNat t2.2)
        (digitsToNat t3.2) (digitsToNat t4.2) (digitsToNat t5.2) (digitsToNat t6.2)
        (digitsToNat t7.2) (digitsToNat t8.2)) := by
  have hstw : ∀ c ∈ status.toList, isWordChar c = true := by
    rcases hst with h | h | h <;> subst h <;> decide
  have hm0 := matchLanLine_spec ws0 iface ws1 status [t1, t2, t3, t4, t5, t6, t7, t8] []
    h0 (fun c hc => (h0s c hc).1) h1 h1w h2 (fun c hc => (h2s c hc).1) hst ht rfl
    (fun c hc => by simp at hc)
  have hm : matchLanLine (ws0 ++ (iface ++ (ws1 ++ (status.toList ++
      tokensJoin [t1, t2, t3, t4, t5, t6, t7, t8])))) =
      some ⟨iface, status.toList, [t1.2, t2.2, t3.2, t4.2, t5.2, t6.2, t7.2, t8.2]⟩ := by
    simpa using hm0
  have hchar : ∀ c ∈ ws0 ++ (iface ++ (ws1 ++ (status.toList ++
      tokensJoin [t1, t2, t3, t4, t5, t6, t7, t8]))),
      (isSpaceChar c = true ∧ c ≠ '\n') ∨ isWordChar c = true := by
    intro c hc
    simp only [List.mem_append] at hc
    rcases hc with h | h | h | h | h
    · exact Or.inl (h0s c h)
    · exact Or.inr (h1w c h)
    · exact Or.inl (h2s c h)
    · exact Or.inr (hstw c h)
    · rcases mem_tokensJoin [t1, t2, t3, t4, t5, t6, t7, t8] ht h with hsp | hdg
      · exact Or.inl hsp
      · exact Or.inr (digit_is_word hdg)
  have hnl : '\n' ∉ ws0 ++ (iface ++ (ws1 ++ (status.toList ++
      tokensJoin [t1, t2, t3, t4, t5, t6, t7, t8]))) := by
    intro hmem
    rcases hchar '\n' hmem with ⟨_, hne⟩ | hw
    · exact hne rfl
    · exact absurd hw (by decide)
  have hcolon : (':' : Char) ∉ ws0 ++ (iface ++ (ws1 ++ (status.toList ++
      tokensJoin [t1, t2, t3, t4, t5, t6, t7, t8]))) := by
    intro hmem
    rcases hchar ':' hmem with ⟨hs, _⟩ | hw
    · exact absurd hs (by decide)
    · exact absurd hw (by decide)
  have hR : containsSub ("Received Counters:".toList)
      (ws0 ++ (iface ++ (ws1 ++ (status.toList ++
        tokensJoin [t1, t2, t3, t4, t5, t6, t7, t8])))) = false :=
    containsSub_false_of_missing _ _ (by decide) hcolon
  have hT : containsSub ("Transmitted Counters:".toList)
      (ws0 ++ (iface ++ (ws1 ++ (status.toList ++
        tokensJoin [t1, t2, t3, t4, t5, t6, t7, t8])))) = false :=
    containsSub_false_of_missing _ _ (by decide) hcolon
  have hd : ∀ x ∈ [t1.2, t2.2, t3.2, t4.2, t5.2, t6.2, t7.2, t8.2],
      x ≠ [] ∧ ∀ c ∈ x, isDigitChar c = true := by
    intro x hx
    simp only [List.mem_cons, List.not_mem_nil, or_false] at hx
    rcases hx with rfl | rfl | rfl | rfl | rfl | rfl | rfl | rfl <;>
      exact GoodTok.digits (ht _ (by simp))
  have hstep2 := lanStepE_match d [] _ hR hT iface status.toList
    t1.2 t2.2 t3.2 t4.2 t5.2 t6.2 t7.2 t8.2 hm hd
  have hsplit := splitLines_append_newline (headerOf d)
    (ws0 ++ (iface ++ (ws1 ++ (status.toList ++
      tokensJoin [t1, t2, t3, t4, t5, t6, t7, t8])))) (by cases d <;> decide)
  cases d with
  | rx =>
    have hstep1 : lanStepE ((none : Option Dir), ([] : List (String × Value)))
        (headerOf Dir.rx) = .ok (some Dir.rx, []) := rfl
    unfold parse_lan_stats
    rw [hsplit, splitLines_no_newline _ hnl]
    simp only [runLines, hstep1, hstep2, dictUpdate_nil_lanGroup]
  | tx =>
    have hstep1 : lanStepE ((none : Option Dir), ([] : List (String × Value)))
        (headerOf Dir.tx) = .ok (some Dir.tx, []) := rfl
    unfold parse_lan_stats
    rw [hsplit, splitLines_no_newline _ hnl]
    simp only [runLines, hstep1, hstep2, dictUpdate_nil_lanGroup]

/-- Witness for C4: the spec's fixed sample transcript — one `Up` LAN row
for `eth1` under `Received Counters:` with counters
`[1000, 10, 0, 0, 0, 0, 8, 2]` — together with the same row under a
`Transmitted Counters:` header yielding the `tx` key group. -/
theorem c4_lan_wellformed_line_full_group_witness :
    parse_lan_stats ("Received Counters:\n  eth1 Up 1000 10 0 0 0 0 8 2".toList) =
      .ok [("lan_eth1_rx_status", Value.s "Up"),
           ("lan_eth1_rx_total_bytes", Value.i 1000),
           ("lan_eth1_rx_total_packets", Value.i 10),
           ("lan_eth1_rx_errors", Value.i 0),
           ("lan_eth1_rx_drops", Value.i 0),
           ("lan_eth1_rx_multicast_bytes", Value.i 0),
           ("lan_eth1_rx_multicast_packets", Value.i 0),
           ("lan_eth1_rx_unicast_packets", Value.i 8),
           ("lan_eth1_rx_broadcast_packets", Value.i 2)] ∧
    parse_lan_stats ("Transmitted Counters:\n  eth1 Up 1000 10 0 0 0 0 8 2".toList) =
      .ok [("lan_eth1_tx_status", Value.s "Up"),
           ("lan_eth1_tx_total_bytes", Value.i 1000),
           ("lan_eth1_tx_total_packets", Value.i 10),
           ("lan_eth1_tx_errors", Value.i 0),
           ("lan_eth1_tx_drops", Value.i 0),
           ("lan_eth1_tx_multicast_bytes", Value.i 0),
           ("lan_eth1_tx_multicast_packets", Value.i 0),
           ("lan_eth1_tx_unicast_packets", Value.i 8),
           ("lan_eth1_tx_broadcast_packets", Value.i 2)] := by
  constructor
  · have h := c4_lan_wellformed_line_full_group Dir.rx [' ', ' '] ("eth1".toList) [' '] "Up"
      ([' '], "1000".toList) ([' '], "10".toList) ([' '], "0".toList) ([' '], "0".toList)
      ([' '], "0".toList) ([' '], "0".toList) ([' '], "8".toList) ([' '], "2".toList)
      (by decide) (by decide) (by decide) (by decide) (by decide) (by decide)
      (by decide) (by decide)
    exact h
  · have h := c4_lan_wellformed_line_full_group Dir.tx [' ', ' '] ("eth1".toList) [' '] "Up"
      ([' '], "1000".toList) ([' '], "10".toList) ([' '], "0".toList) ([' '], "0".toList)
      ([' '], "0".toList) ([' '], "0".toList) ([' '], "8".toList) ([' '], "2".toList)
      (by decide) (by decide) (by decide) (by decide) (by decide) (by decide)
      (by decide) (by decide)
    exact h

theorem goodtok_digit_list (t1 t2 t3 t4 t5 t6 t7 t8 : List Char × List Char)
    (ht : ∀ t ∈ [t1, t2, t3, t4, t5, t6, t7, t8], GoodTok t) :
    ∀ x ∈ [t1.2, t2.2, t3.2, t4.2, t5.2, t6.2, t7.2, t8.2],
      x ≠ [] ∧ ∀ c ∈ x, isDigitChar c = true := by
  intro x hx
  simp only [List.mem_cons, List.not_mem_nil, or_false] at hx
  rcases hx with rfl | rfl | rfl | rfl | rfl | rfl | rfl | rfl <;>
    exact GoodTok.digits (ht _ (by simp))

theorem head_not_digit_of_headD {rest : List Char}
    (h : isDigitChar (rest.headD ' ') = false) :
    ∀ c, rest.head? = some c → isDigitChar c = false := by
  intro c hc
  cases rest with
  | nil => simp at hc
  | cons a t =>
    simp only [List.head?_cons, Option.some.injEq] at hc
    subst hc
    simpa using h

/-- C10: for every line inside a recognized rx/tx section whose prefix
matches the required leading fields, the extractor emits the full record
built from those leading fields even when additional text or further
numbers follow on the same line, because `re.match` anchors the pattern
only at the start of the line. Stated for both the LAN and WAN line
loops. -/
theorem c10_trailing_text_ignored :
    (∀ (d : Dir) (data : List (String × Value)) (ws0 iface ws1 : List Char)
      (status : String) (t1 t2 t3 t4 t5 t6 t7 t8 : List Char × List Char)
      (rest : List Char),
      ws0 ≠ [] → (∀ c ∈ ws0, isSpaceChar c = true) →
      iface ≠ [] → (∀ c ∈ iface, isWordChar c = true) →
      ws1 ≠ [] → (∀ c ∈ ws1, isSpaceChar c = true) →
      (status = "Up" ∨ status = "Disabled" ∨ status = "Down") →
      (∀ t ∈ [t1, t2, t3, t4, t5, t6, t7, t8], GoodTok t) →
      (∀ c, rest.head? = some c → isDigitChar c = false) →
      containsSub ("Received Counters:".toList)
        (ws0 ++ (iface ++ (ws1 ++ (status.toList ++
          (tokensJoin [t1, t2, t3, t4, t5, t6, t7, t8] ++ rest))))) = false →
      containsSub ("Transmitted Counters:".toList)
        (ws0 ++ (iface ++ (ws1 ++ (status.toList ++
          (tokensJoin [t1, t2, t3, t4, t5, t6, t7, t8] ++ rest))))) = false →
      lanStepE (some d, data)
        (ws0 ++ (iface ++ (ws1 ++ (status.toList ++
          (tokensJoin [t1, t2, t3, t4, t5, t6, t7, t8] ++ rest))))) =
        .ok (some d, dictUpdate data (lanGroup iface d status.toList
          (digitsToNat t1.2) (digitsToNat t2.2) (digitsToNat t3.2) (digitsToNat t4.2)
          (digitsToNat t5.2) (digitsToNat t6.2) (digitsToNat t7.2) (digitsToNat t8.2)))) ∧
    (∀ (d : Dir) (data : List (String × Value)) (ws0 iface : List Char)
      (vt t1 t2 t3 t4 t5 t6 t7 t8 : List Char × List Char) (rest : List Char),
      ws0 ≠ [] → (∀ c ∈ ws0, isSpaceChar c = true) →
      iface ≠ [] → (∀ c ∈ iface, isNonSpaceChar c = true) →
      GoodTok vt → (∀ t ∈ [t1, t2, t3, t4, t5, t6, t7, t8], GoodTok t) →
      (∀ c, rest.head? = some c → isDigitChar c = false) →
      containsSub ("Received Counters:".toList)
        (ws0 ++ (iface ++ (tokensJoin (vt :: [t1, t2, t3, t4, t5, t6, t7, t8]) ++ rest))) = false →
      containsSub ("Transmitted Counters:".toList)
        (ws0 ++ (iface ++ (tokensJoin (vt :: [t1, t2, t3, t4, t5, t6, t7, t8]) ++ rest))) = false →
      wanStepE (some d, data)
        (ws0 ++ (iface ++ (tokensJoin (vt :: [t1, t2, t3, t4, t5, t6, t7, t8]) ++ rest))) =
        .ok (some d, dictUpdate data (wanGroup iface d vt.2
          (digitsToNat t1.2) (digitsToNat t2.2) (digitsToNat t3.2) (digitsToNat t4.2)
          (digitsToNat t5.2) (digitsToNat t6.2) (digitsToNat t7.2) (digitsToNat t8.2)))) := by
  constructor
  · intro d data ws0 iface ws1 status t1 t2 t3 t4 t5 t6 t7 t8 rest
      h0 h0s h1 h1w h2 h2s hst ht hrest hR hT
    have hm0 := matchLanLine_spec ws0 iface ws1 status [t1, t2, t3, t4, t5, t6, t7, t8]
      rest h0 h0s h1 h1w h2 h2s hst ht rfl hrest
    have hm : matchLanLine (ws0 ++ (iface ++ (ws1 ++ (status.toList ++
        (tokensJoin [t1, t2, t3, t4, t5, t6, t7, t8] ++ rest))))) =
        some ⟨iface, status.toList, [t1.2, t2.2, t3.2, t4.2, t5.2, t6.2, t7.2, t8.2]⟩ := by
      simpa using hm0
    exact lanStepE_match d data _ hR hT iface status.toList
      t1.2 t2.2 t3.2 t4.2 t5.2 t6.2 t7.2 t8.2 hm
      (goodtok_digit_list t1 t2 t3 t4 t5 t6 t7 t8 ht)
  · intro d data ws0 iface vt t1 t2 t3 t4 t5 t6 t7 t8 rest
      h0 h0s h1 h1n hvt ht hrest hR hT
    have hm0 := matchWanLine_spec ws0 iface vt [t1, t2, t3, t4, t5, t6, t7, t8]
      rest h0 h0s h1 h1n hvt ht rfl hrest
    have hm : matchWanLine (ws0 ++ (iface ++
        (tokensJoin (vt :: [t1, t2, t3, t4, t5, t6, t7, t8]) ++ rest))) =
        some ⟨iface, vt.2, [t1.2, t2.2, t3.2, t4.2, t5.2, t6.2, t7.2, t8.2]⟩ := by
      simpa using hm0
    exact wanStepE_match d data _ hR hT iface vt.2
      t1.2 t2.2 t3.2 t4.2 t5.2 t6.2 t7.2 t8.2 hm
      (goodtok_digit_list t1 t2 t3 t4 t5 t6 t7 t8 ht)

/-- Witness for C10: a LAN row followed by extra text and further numbers,
and a WAN row followed by trailing text, each still emitting the full
record built from the leading fields. -/
theorem c10_trailing_text_ignored_witness :
    lanStepE (some Dir.rx, [])
        ("  eth1 Up 1000 10 0 0 0 0 8 2 and more 77".toList) =
      .ok (some Dir.rx,
        [("lan_eth1_rx_status", Value.s "Up"),
         ("lan_eth1_rx_total_bytes", Value.i 1000),
         ("lan_eth1_rx_total_packets", Value.i 10),
         ("lan_eth1_rx_errors", Value.i 0),
         ("lan_eth1_rx_drops", Value.i 0),
         ("lan_eth1_rx_multicast_bytes", Value.i 0),
         ("lan_eth1_rx_multicast_packets", Value.i 0),
         ("lan_eth1_rx_unicast_packets", Value.i 8),
         ("lan_eth1_rx_broadcast_packets", Value.i 2)]) ∧
    wanStepE (some Dir.tx, [])
        ("  ppp0.1 100 1 2 3 4 5 6 7 8 trailing".toList) =
      .ok (some Dir.tx,
        [("wan_ppp0.1_tx_vlan_id", Value.s "100"),
         ("wan_ppp0.1_tx_total_bytes", Value.i 1),
         ("wan_ppp0.1_tx_total_packets", Value.i 2),
         ("wan_ppp0.1_tx_errors", Value.i 3),
         ("wan_ppp0.1_tx_drops", Value.i 4),
         ("wan_ppp0.1_tx_multicast_bytes", Value.i 5),
         ("wan_ppp0.1_tx_multicast_packets", Value.i 6),
         ("wan_ppp0.1_tx_unicast_packets", Value.i 7),
         ("wan_ppp0.1_tx_broadcast_packets", Value.i 8)]) := by
  constructor
  · exact c10_trailing_text_ignored.1 Dir.rx [] [' ', ' '] ("eth1".toList) [' '] "Up"
      ([' '], "1000".toList) ([' '], "10".toList) ([' '], "0".toList) ([' '], "0".toList)
      ([' '], "0".toList) ([' '], "0".toList) ([' '], "8".toList) ([' '], "2".toList)
      (" and more 77".toList)
      (by decide) (by decide) (by decide) (by decide) (by decide) (by decide)
      (by decide) (by decide) (head_not_digit_of_headD (by decide))
      (by decide) (by decide)
  · exact c10_trailing_text_ignored.2 Dir.tx [] [' ', ' '] ("ppp0.1".toList)
      ([' '], "100".toList)
      ([' '], "1".toList) ([' '], "2".toList) ([' '], "3".toList) ([' '], "4".toList)
      ([' '], "5".toList) ([' '], "6".toList) ([' '], "7".toList) ([' '], "8".toList)
      (" trailing".toList)
      (by decide) (by decide) (by decide) (by decide) (by decide) (by decide)
      (head_not_digit_of_headD (by decide))
      (by decide) (by decide)

theorem munchNumTokens_sound : ∀ (n : Nat) (cs : List Char) (ts : List (List Char))
    (r : List Char), munchNumTokens n cs = some (ts, r) →
    ∀ t ∈ ts, t ≠ [] ∧ ∀ c ∈ t, isDigitChar c = true := by
  intro n
  induction n with
  | zero =>
    intro cs ts r h t ht
    simp only [munchNumTokens, Option.some.injEq, Prod.mk.injEq] at h
    rw [← h.1] at ht
    simp at ht
  | succ n ih =>
    intro cs ts r h t ht
    unfold munchNumTokens at h
    cases h1 : munch1 isSpaceChar cs with
    | none => simp [h1] at h
    | some p1 =>
      simp only [h1] at h
      obtain ⟨ws, cs1⟩ := p1
      cases h2 : munch1 isDigitChar cs1 with
      | none => simp [h2] at h
      | some p2 =>
        simp only [h2] at h
        obtain ⟨ds, cs2⟩ := p2
        cases h3 : munchNumTokens n cs2 with
        | none => simp [h3] at h
        | some p3 =>
          simp only [h3] at h
          obtain ⟨ts2, cs3⟩ := p3
          simp only [Option.some.injEq, Prod.mk.injEq] at h
          rw [← h.1] at ht
          rcases List.mem_cons.mp ht with rfl | hmem
          · exact munch1_sound h2
          · exact ih cs2 ts2 cs3 h3 t hmem

theorem matchLanLine_sound {line : List Char} {cap : LanCapture}
    (h : matchLanLine line = some cap) :
    ∀ t ∈ cap.nums, t ≠ [] ∧ ∀ c ∈ t, isDigitChar c = true := by
  unfold matchLanLine at h
  cases h1 : munch1 isSpaceChar line with
  | none => simp [h1] at h
  | some p1 =>
    simp only [h1] at h
    obtain ⟨ws, r1⟩ := p1
    cases h2 : munch1 isWordChar r1 with
    | none => simp [h2] at h
    | some p2 =>
      simp only [h2] at h
      obtain ⟨iface, r2⟩ := p2
      cases h3 : munch1 isSpaceChar r2 with
      | none => simp [h3] at h
      | some p3 =>
        simp only [h3] at h
        obtain ⟨ws2, r3⟩ := p3
        cases h4 : matchStatus r3 with
        | none => simp [h4] at h
        | some p4 =>
          simp only [h4] at h
          obtain ⟨stv, r4⟩ := p4
          cases h5 : munchNumTokens 8 r4 with
          | none => simp [h5] at h
          | some p5 =>
            simp only [h5] at h
            obtain ⟨ts, r5⟩ := p5
            simp only [Option.some.injEq] at h
            rw [← h]
            exact munchNumTokens_sound 8 r4 ts r5 h5

theorem matchWanLine_sound {line : List Char} {cap : WanCapture}
    (h : matchWanLine line = some cap) :
    ∀ t ∈ cap.nums, t ≠ [] ∧ ∀ c ∈ t, isDigitChar c = true := by
  unfold matchWanLine at h
  cases h1 : munch1 isSpaceChar line with
  | none => simp [h1] at h
  | some p1 =>
    simp only [h1] at h
    obtain ⟨ws, r1⟩ := p1
    cases h2 : munch1 isNonSpaceChar r1 with
    | none => simp [h2] at h
    | some p2 =>
      simp only [h2] at h
      obtain ⟨iface, r2⟩ := p2
      cases h3 : munchNumTokens 9 r2 with
      | none => simp [h3] at h
      | some p3 =>
        simp only [h3] at h
        obtain ⟨ts, r3⟩ := p3
        cases ts with
        | nil => simp at h
        | cons v ts2 =>
          simp only [Option.some.injEq] at h
          rw [← h]
          intro t ht
          exact munchNumTokens_sound 9 r2 (v :: ts2) r3 h3 t
            (List.mem_cons_of_mem v ht)

theorem pyIntList_ok : ∀ (ds : List (List Char)),
    (∀ t ∈ ds, t ≠ [] ∧ ∀ c ∈ t, isDigitChar c = true) →
    ∃ ns, pyIntList ds = some ns := by
  intro ds
  induction ds with
  | nil => intro _; exact ⟨[], rfl⟩
  | cons d rest ih =>
    intro h
    obtain ⟨ns, hns⟩ := ih (fun t ht => h t (by simp [ht]))
    have hd := h d (by simp)
    refine ⟨digitsToNat d :: ns, ?_⟩
    simp [pyIntList, pyInt?_digits hd.1 hd.2, hns]

set_option maxHeartbeats 1600000 in
/-- Each line-loop iteration never raises and either leaves the
accumulated data unchanged or inserts one full field group. -/
theorem stepE_all_or_nothing :
    (∀ (sec : Option Dir) (data : List (String × Value)) (line : List Char),
      ∃ st2, lanStepE (sec, data) line = .ok st2 ∧
        (st2.2 = data ∨ ∃ iface d status tb tp er dr mb mp uc bc,
          sec = some d ∧
          st2.2 = dictUpdate data (lanGroup iface d status tb tp er dr mb mp uc bc))) ∧
    (∀ (sec : Option Dir) (data : List (String × Value)) (line : List Char),
      ∃ st2, wanStepE (sec, data) line = .ok st2 ∧
        (st2.2 = data ∨ ∃ iface d vlan tb tp er dr mb mp uc bc,
          sec = some d ∧
          st2.2 = dictUpdate data (wanGroup iface d vlan tb tp er dr mb mp uc bc))) := by
  constructor
  · intro sec data line
    cases hR : containsSub ("Received Counters:".toList) line with
    | true =>
      refine ⟨(some .rx, data), ?_, Or.inl rfl⟩
      unfold lanStepE
      rw [hR]; rfl
    | false =>
      cases hT : containsSub ("Transmitted Counters:".toList) line with
      | true =>
        refine ⟨(some .tx, data), ?_, Or.inl rfl⟩
        unfold lanStepE
        rw [hR, hT]; rfl
      | false =>
        cases hm : matchLanLine line with
        | none =>
          refine ⟨(sec, data), ?_, Or.inl rfl⟩
          unfold lanStepE
          rw [hR, hT, hm]; rfl
        | some cap =>
          cases sec with
          | none =>
            refine ⟨(none, data), ?_, Or.inl rfl⟩
            unfold lanStepE
            rw [hR, hT, hm]; rfl
          | some d =>
            obtain ⟨ns, hns⟩ := pyIntList_ok cap.nums (matchLanLine_sound hm)
            rcases ns with _ | ⟨tb, _ | ⟨tp, _ | ⟨er, _ | ⟨dr, _ | ⟨mb, _ | ⟨mp,
              _ | ⟨uc, _ | ⟨bc, _ | ⟨x, xs⟩⟩⟩⟩⟩⟩⟩⟩⟩ <;>
              [skip; skip; skip; skip; skip; skip; skip; skip;
                (refine ⟨(some d, dictUpdate data
                    (lanGroup cap.iface d cap.status tb tp er dr mb mp uc bc)), ?_,
                  Or.inr ⟨cap.iface, d, cap.status, tb, tp, er, dr, mb, mp, uc, bc,
                    rfl, rfl⟩⟩
                 simp only [lanStepE, hR, hT, Bool.false_eq_true, if_false, hm, hns]);
                skip] <;>
              (refine ⟨(some d, data), ?_, Or.inl rfl⟩
               simp only [lanStepE, hR, hT, Bool.false_eq_true, if_false, hm, hns])
  · intro sec data line
    cases hR : containsSub ("Received Counters:".toList) line with
    | true =>
      refine ⟨(some .rx, data), ?_, Or.inl rfl⟩
      unfold wanStepE
      rw [hR]; rfl
    | false =>
      cases hT : containsSub ("Transmitted Counters:".toList) line with
      | true =>
        refine ⟨(some .tx, data), ?_, Or.inl rfl⟩
        unfold wanStepE
        rw [hR, hT]; rfl
      | false =>
        cases hm : matchWanLine line with
        | none =>
          refine ⟨(sec, data), ?_, Or.inl rfl⟩
          unfold wanStepE
          rw [hR, hT, hm]; rfl
        | some cap =>
          cases sec with
          | none =>
            refine ⟨(none, data), ?_, Or.inl rfl⟩
            unfold wanStepE
            rw [hR, hT, hm]; rfl
          | some d =>
            obtain ⟨ns, hns⟩ := pyIntList_ok cap.nums (matchWanLine_sound hm)
            rcases ns with _ | ⟨tb, _ | ⟨tp, _ | ⟨er, _ | ⟨dr, _ | ⟨mb, _ | ⟨mp,
              _ | ⟨uc, _ | ⟨bc, _ | ⟨x, xs⟩⟩⟩⟩⟩⟩⟩⟩⟩ <;>
              [skip; skip; skip; skip; skip; skip; skip; skip;
                (refine ⟨(some d, dictUpdate data
                    (wanGroup cap.iface d cap.vlan tb tp er dr mb mp uc bc)), ?_,
                  Or.inr ⟨cap.iface, d, cap.vlan, tb, tp, er, dr, mb, mp, uc, bc,
                    rfl, rfl⟩⟩
                 simp only [wanStepE, hR, hT, Bool.false_eq_true, if_false, hm, hns]);
                skip] <;>
              (refine ⟨(some d, data), ?_, Or.inl rfl⟩
               simp only [wanStepE, hR, hT, Bool.false_eq_true, if_false, hm, hns])

/-- C5: every individual LAN or WAN report line contributes either no keys
at all or the complete field group for its interface/direction row to the
resulting mapping; a malformed or unmatched line (in particular one with
fewer than the required numeric fields) contributes nothing — never a
partially-filled group — and does not cause a failure. -/
theorem c5_all_or_nothing_per_line :
    (∀ (sec : Option Dir) (data : List (String × Value)) (line : List Char),
      ∃ st2, lanStepE (sec, data) line = .ok st2 ∧
        (st2.2 = data ∨ ∃ iface d status tb tp er dr mb mp uc bc,
          sec = some d ∧
          st2.2 = dictUpdate data (lanGroup iface d status tb tp er dr mb mp uc bc))) ∧
    (∀ (sec : Option Dir) (data : List (String × Value)) (line : List Char),
      ∃ st2, wanStepE (sec, data) line = .ok st2 ∧
        (st2.2 = data ∨ ∃ iface d vlan tb tp er dr mb mp uc bc,
          sec = some d ∧
          st2.2 = dictUpdate data (wanGroup iface d vlan tb tp er dr mb mp uc bc))) :=
  stepE_all_or_nothing

theorem lanStepE_ok (st : Option Dir × List (String × Value)) (line : List Char) :
    ∃ st2, lanStepE st line = .ok st2 := by
  obtain ⟨st2, h, _⟩ := stepE_all_or_nothing.1 st.1 st.2 line
  exact ⟨st2, h⟩

theorem wanStepE_ok (st : Option Dir × List (String × Value)) (line : List Char) :
    ∃ st2, wanStepE st line = .ok st2 := by
  obtain ⟨st2, h, _⟩ := stepE_all_or_nothing.2 st.1 st.2 line
  exact ⟨st2, h⟩

theorem runLines_ok
    {step : (Option Dir × List (String × Value)) → List Char →
      Except PyErr (Option Dir × List (String × Value))}
    (hstep : ∀ st line, ∃ st2, step st line = .ok st2) :
    ∀ (lines : List (List Char)) (st : Option Dir × List (String × Value)),
      ∃ st2, runLines step st lines = .ok st2 := by
  intro lines
  induction lines with
  | nil => intro st; exact ⟨st, rfl⟩
  | cons l ls ih =>
    intro st
    obtain ⟨st1, h1⟩ := hstep st l
    obtain ⟨st2, h2⟩ := ih st1
    exact ⟨st2, by simp only [runLines, h1, h2]⟩

theorem parse_lan_stats_total (out : List Char) :
    ∃ d, parse_lan_stats out = .ok d := by
  obtain ⟨st2, h⟩ := runLines_ok lanStepE_ok (splitLines out) (none, [])
  exact ⟨st2.2, by simp only [parse_lan_stats, h]⟩

theorem parse_wan_stats_total (out : List Char) :
    ∃ d, parse_wan_stats out = .ok d := by
  obtain ⟨st2, h⟩ := runLines_ok wanStepE_ok (splitLines out) (none, [])
  exact ⟨st2.2, by simp only [parse_wan_stats, h]⟩

theorem laserField_cases (key : String) (lbl unit : List Char) (out : List Char)
    (d : List (String × Value)) :
    (∃ d2, laserField key lbl unit out d = .ok d2) ∨
      (∃ tok, searchLaser lbl unit out = some tok ∧ pyFloat? tok = none ∧
        laserField key lbl unit out d = .error .valueError) := by
  unfold laserField
  cases hs : searchLaser lbl unit out with
  | none => exact Or.inl ⟨d, rfl⟩
  | some tok =>
    cases hf : pyFloat? tok with
    | none => exact Or.inr ⟨tok, rfl, hf, by simp only [hf]⟩
    | some q => exact Or.inl ⟨dictInsert d key (Value.f q), by simp only [hf]⟩

theorem parse_laser_cases (out : List Char) :
    (∃ d, parse_laser_stats out = .ok d) ∨
      (∃ k lbl unit tok, (k, lbl, unit) ∈ laserPatterns ∧
        searchLaser lbl unit out = some tok ∧ pyFloat? tok = none ∧
        parse_laser_stats out = .error .valueError) := by
  rcases laserField_cases "laser_rx_power" ("Rx Optical Power".toList) ("dBm".toList)
      out [] with ⟨d1, h1⟩ | ⟨tok, hs, hf, he⟩
  · rcases laserField_cases "laser_tx_power" ("Tx Optical Power".toList) ("dBm".toList)
        out d1 with ⟨d2, h2⟩ | ⟨tok, hs, hf, he⟩
    · rcases laserField_cases "laser_bias_current" ("Tx Bias Current".toList)
          ("mA".toList) out d2 with ⟨d3, h3⟩ | ⟨tok, hs, hf, he⟩
      · rcases laserField_cases "laser_voltage" ("Supply voltage".toList) ("V".toList)
            out d3 with ⟨d4, h4⟩ | ⟨tok, hs, hf, he⟩
        · rcases laserField_cases "laser_temperature" ("SFF Temperature".toList)
              ("C".toList) out d4 with ⟨d5, h5⟩ | ⟨tok, hs, hf, he⟩
          · exact Or.inl ⟨d5, by simp only [parse_laser_stats, h1, h2, h3, h4, h5]⟩
          · exact Or.inr ⟨"laser_temperature", "SFF Temperature".toList, "C".toList,
              tok, by simp [laserPatterns], hs, hf,
              by simp only [parse_laser_stats, h1, h2, h3, h4, he]⟩
        · exact Or.inr ⟨"laser_voltage", "Supply voltage".toList, "V".toList,
            tok, by simp [laserPatterns], hs, hf,
            by simp only [parse_laser_stats, h1, h2, h3, he]⟩
      · exact Or.inr ⟨"laser_bias_current", "Tx Bias Current".toList, "mA".toList,
          tok, by simp [laserPatterns], hs, hf,
          by simp only [parse_laser_stats, h1, h2, he]⟩
    · exact Or.inr ⟨"laser_tx_power", "Tx Optical Power".toList, "dBm".toList,
        tok, by simp [laserPatterns], hs, hf,
        by simp only [parse_laser_stats, h1, he]⟩
  · exact Or.inr ⟨"laser_rx_power", "Rx Optical Power".toList, "dBm".toList,
      tok, by simp [laserPatterns], hs, hf,
      by simp only [parse_laser_stats, he]⟩

/-- C2 (amended): `_parse_lan_stats` and `_parse_wan_stats` return a
mapping without raising for every input string; `_parse_laser_stats`
likewise returns the subset it parsed, except that when one of its five
patterns matches a numeric token that is not a valid float literal the
`float(..)` conversion raises `ValueError`. -/
theorem c2_extractors_no_throw_amended :
    (∀ out, ∃ d, parse_lan_stats out = .ok d) ∧
    (∀ out, ∃ d, parse_wan_stats out = .ok d) ∧
    (∀ out, (∃ d, parse_laser_stats out = .ok d) ∨
      (∃ k lbl unit tok, (k, lbl, unit) ∈ laserPatterns ∧
        searchLaser lbl unit out = some tok ∧ pyFloat? tok = none ∧
        parse_laser_stats out = .error .valueError)) :=
  ⟨parse_lan_stats_total, parse_wan_stats_total, parse_laser_cases⟩

/-- C2 counterexample: on the input `Rx Optical Power = . dBm` the laser
pattern matches and captures the token `.`, and Python `float(".")`
raises `ValueError`, so the extractor does not return a mapping — the
claim that all three extractors never raise is false. -/
theorem c2_counterexample :
    parse_laser_stats ("Rx Optical Power = . dBm".toList) =
      .error .valueError := rfl

/-- C1 (amended): when the SSH session raises a connection-level error,
`get_all_data` catches it (`except Exception: log`) and returns the
mapping accumulated so far — the empty mapping, since the session failed
before any parsing — and `async_update_data` therefore reports a
successful poll with an empty snapshot instead of propagating a poll
failure. -/
theorem c1_connection_error_swallowed_amended :
    ∀ (ce : Option SshError) (events : List CmdEvent) (e : SshError),
      execute_multiple_commands ce (cmdList.zip events) = .error e →
      get_all_data ce events = [] ∧ async_update_data ce events = .ok [] := by
  intro ce events e h
  constructor
  · unfold get_all_data
    rw [h]
  · unfold async_update_data get_all_data
    rw [h]

/-- Witness for C1 (amended): a mid-handshake session error. -/
theorem c1_connection_error_swallowed_amended_witness :
    get_all_data (some SshError.session) [] = [] ∧
      async_update_data (some SshError.session) [] = .ok [] :=
  c1_connection_error_swallowed_amended (some SshError.session) [] SshError.session rfl

/-- C1 counterexample: with a transport-level connection failure the
snapshot fetch returns the empty mapping as a normal result and the
coordinator update reports success — the error does not propagate to the
caller as a poll failure, contradicting the claim. -/
theorem c1_counterexample :
    get_all_data (some SshError.transport) [] = [] ∧
      async_update_data (some SshError.transport) [] = .ok [] :=
  ⟨rfl, rfl⟩

/-! ### Rate-derivation step lemmas -/

theorem native_value_first (fuel : Nat) (clock : List ℚ) (st : SpeedState) (v t : ℚ)
    (h : st.last_value = none ∨ st.last_update = none) :
    native_value (fuel + 1) (t :: clock) st v =
      some (⟨some v, some t, st.cached_speed⟩, 0) := by
  obtain ⟨lv, lu, cs⟩ := st
  simp only at h
  rcases h with h | h
  · subst h
    cases lu <;> simp only [native_value]
  · subst h
    cases lv <;> simp only [native_value]

theorem native_value_stale_cached (fuel : Nat) (clock : List ℚ) (lv lu cs v t : ℚ)
    (ht : t - lu ≤ 0) :
    native_value (fuel + 1) (t :: clock) ⟨some lv, some lu, some cs⟩ v =
      native_value fuel clock ⟨some lv, some lu, some cs⟩ v := by
  simp only [native_value]
  rw [if_pos ht]

theorem native_value_stale_uncached (fuel : Nat) (clock : List ℚ) (lv lu v t : ℚ)
    (ht : t - lu ≤ 0) :
    native_value (fuel + 1) (t :: clock) ⟨some lv, some lu, none⟩ v =
      some (⟨some lv, some lu, none⟩, 0) := by
  simp only [native_value]
  rw [if_pos ht]

theorem native_value_reset (fuel : Nat) (clock : List ℚ) (lv lu : ℚ) (cs : Option ℚ)
    (v t : ℚ) (ht : ¬ (t - lu ≤ 0)) (hv : v - lv < 0) :
    native_value (fuel + 1) (t :: clock) ⟨some lv, some lu, cs⟩ v =
      some (⟨some v, some t, cs⟩, 0) := by
  simp only [native_value]
  rw [if_neg ht, if_pos hv]

theorem native_value_normal (fuel : Nat) (clock : List ℚ) (lv lu : ℚ) (cs : Option ℚ)
    (v t : ℚ) (ht : ¬ (t - lu ≤ 0)) (hv : ¬ (v - lv < 0)) :
    native_value (fuel + 1) (t :: clock) ⟨some lv, some lu, cs⟩ v =
      some (⟨some v, some t, some (round2 ((v - lv) / (t - lu)))⟩,
        round2 ((v - lv) / (t - lu))) := by
  simp only [native_value]
  rw [if_neg ht, if_neg hv]

theorem round2_intCast (n : ℤ) : round2 ((n : ℚ)) = n := by
  simp only [round2, pyRound0]
  have h1 : ((n : ℚ) * 100) = ((n * 100 : ℤ) : ℚ) := by push_cast; ring
  rw [h1, Int.floor_intCast, sub_self]
  rw [if_pos (by norm_num : (0 : ℚ) < 1 / 2)]
  push_cast
  exact mul_div_cancel_right₀ _ (by norm_num)

/-- C3 (code bug): in the `time_diff <= 0` branch the source returns
`self.native_value if hasattr(self, '_cached_speed') else 0` — a
recursive re-entry of the `native_value` property (which reads the wall
clock again) where `self._cached_speed` was plainly intended. With stored
cursor (200, t=10), cached rate 10 and current value 205, observed at
clock time 10: if the re-read clock has advanced to 10.001 the call
returns a spurious rate of 5000 and overwrites the cursor, and if the
clock still shows 10 the recursion never produces a value (fuel
exhausted at every depth, shown here at fuel 2) — in neither case is the
previously reported rate 10 returned with the stored state left
unmodified, as the claim requires. -/
theorem c3_nonpositive_dt_recursion_bug :
    native_value 2 [10, 10 + 1 / 1000] ⟨some 200, some 10, some 10⟩ 205 =
      some (⟨some 205, some (10 + 1 / 1000), some 5000⟩, 5000) ∧
    native_value 2 [10, 10] ⟨some 200, some 10, some 10⟩ 205 = none := by
  constructor
  · show native_value (1 + 1) (10 :: [10 + 1 / 1000]) ⟨some 200, some 10, some 10⟩ 205 = _
    rw [native_value_stale_cached 1 [10 + 1 / 1000] 200 10 10 205 10 (by norm_num)]
    show native_value (0 + 1) ((10 + 1 / 1000) :: []) ⟨some 200, some 10, some 10⟩ 205 = _
    rw [native_value_normal 0 [] 200 10 (some 10) 205 (10 + 1 / 1000)
      (by norm_num) (by norm_num)]
    have h2 : ((205 : ℚ) - 200) / ((10 + 1 / 1000) - 10) = ((5000 : ℤ) : ℚ) := by
      norm_num
    rw [h2, round2_intCast]
    norm_num
  · show native_value (1 + 1) (10 :: [10]) ⟨some 200, some 10, some 10⟩ 205 = none
    rw [native_value_stale_cached 1 [10] 200 10 10 205 10 (by norm_num)]
    show native_value (0 + 1) (10 :: []) ⟨some 200, some 10, some 10⟩ 205 = none
    rw [native_value_stale_cached 0 [] 200 10 10 205 10 (by norm_num)]
    rfl

/-- C7: for a key with stored cursor (previous value, previous time), an
observation with a strictly later timestamp and a strictly smaller value
(counter reset) stores the current sample as a fresh baseline and
returns rate 0, never a negative rate. -/
theorem c7_counter_reset_fresh_baseline (lv lu v t : ℚ) (cs : Option ℚ)
    (ht : lu < t) (hv : v < lv) :
    native_value 1 [t] ⟨some lv, some lu, cs⟩ v =
      some (⟨some v, some t, cs⟩, 0) :=
  native_value_reset 0 [] lv lu cs v t (by linarith) (by linarith)

/-- Witness for C7: the spec's example — cursor (150, t=5), observation
(120, t=10) returns 0 and the stored baseline becomes (120, 10). -/
theorem c7_counter_reset_fresh_baseline_witness :
    native_value 1 [10] ⟨some 150, some 5, some 10⟩ 120 =
      some (⟨some 120, some 10, some 10⟩, 0) :=
  c7_counter_reset_fresh_baseline 150 5 120 10 (some 10) (by norm_num) (by norm_num)

/-- C8: for a key with stored cursor, an observation with a strictly
later timestamp and a value at least the stored value returns
(Δvalue / Δtime) rounded to two decimal places and updates the stored
cursor to the current (value, time). -/
theorem c8_rate_is_delta_over_dt_rounded (lv lu v t : ℚ) (cs : Option ℚ)
    (ht : lu < t) (hv : lv ≤ v) :
    native_value 1 [t] ⟨some lv, some lu, cs⟩ v =
      some (⟨some v, some t, some (round2 ((v - lv) / (t - lu)))⟩,
        round2 ((v - lv) / (t - lu))) :=
  native_value_normal 0 [] lv lu cs v t (by linarith) (by linarith)

/-- Witness for C8: the spec's example — observe(k, 100, t0) then
observe(k, 150, t0+5s) returns 10.0 bytes/sec. -/
theorem c8_rate_is_delta_over_dt_rounded_witness :
    native_value 1 [5] ⟨some 100, some 0, none⟩ 150 =
      some (⟨some 150, some 5, some 10⟩, 10) := by
  have h := c8_rate_is_delta_over_dt_rounded 100 0 150 5 none (by norm_num) (by norm_num)
  rw [h]
  have h2 : ((150 : ℚ) - 100) / (5 - 0) = ((10 : ℤ) : ℚ) := by norm_num
  rw [h2, round2_intCast]
  norm_num

/-- C9: for a key with no stored cursor (the state after a process
restart, since cursors are in-memory only), the first observation stores
(value, time) and returns rate 0. -/
theorem c9_first_observation_returns_zero (st : SpeedState) (v t : ℚ)
    (h : st.last_value = none ∨ st.last_update = none) :
    native_value 1 [t] st v = some (⟨some v, some t, st.cached_speed⟩, 0) :=
  native_value_first 0 [] st v t h

/-- Witness for C9: fresh state, first observation of value 100. -/
theorem c9_first_observation_returns_zero_witness :
    native_value 1 [0] ⟨none, none, none⟩ 100 =
      some (⟨some 100, some 0, none⟩, 0) :=
  c9_first_observation_returns_zero ⟨none, none, none⟩ 100 0 (Or.inl rfl)

/-! ### Dictionary lookup lemmas for the session multiplexer -/

theorem find?_map_overwrite {α : Type} (k : String) (v : α) :
    ∀ (d : List (String × α)), d.any (fun p => p.1 == k) = true →
      (d.map (fun p => if p.1 == k then (k, v) else p)).find?
        (fun p => p.1 == k) = some (k, v) := by
  intro d
  induction d with
  | nil => simp
  | cons p d ih =>
    intro hany
    cases hp : (p.1 == k) with
    | true =>
      simp only [List.map_cons, List.find?_cons, hp, if_true]
      simp
    | false =>
      have hany2 : d.any (fun p => p.1 == k) = true := by
        simp only [List.any_cons, hp, Bool.false_or] at hany
        exact hany
      simp only [List.map_cons, List.find?_cons, hp, if_false]
      simpa [hp] using ih hany2

theorem find?_map_overwrite_ne {α : Type} (k k2 : String) (v : α) (hne : k2 ≠ k) :
    ∀ (d : List (String × α)),
      (d.map (fun p => if p.1 == k then (k, v) else p)).find?
        (fun p => p.1 == k2) = d.find? (fun p => p.1 == k2) := by
  intro d
  induction d with
  | nil => simp
  | cons p d ih =>
    cases hp : (p.1 == k) with
    | true =>
      have hpk : p.1 = k := by simpa using hp
      have hp2 : (k == k2) = false := by
        simp only [beq_eq_false_iff_ne, ne_eq]
        exact fun he => hne he.symm
      have hp3 : (p.1 == k2) = false := by
        rw [hpk]
        exact hp2
      simp only [List.map_cons, List.find?_cons, hp, if_true, hp2, hp3]
      exact ih
    | false =>
      simp only [List.map_cons, List.find?_cons, hp, Bool.false_eq_true, if_false]
      cases hq : (p.1 == k2) with
      | true => simp only [hq]
      | false =>
        simp only [hq]
        exact ih

theorem find?_append_none {α : Type} (k : String) (v : α) :
    ∀ (d : List (String × α)), d.any (fun p => p.1 == k) = false →
      (d ++ [(k, v)]).find? (fun p => p.1 == k) = some (k, v) := by
  intro d
  induction d with
  | nil => simp
  | cons p d ih =>
    intro hany
    simp only [List.any_cons, Bool.or_eq_false_iff] at hany
    simp only [List.cons_append, List.find?_cons, hany.1]
    exact ih hany.2

theorem find?_append_ne {α : Type} (k k2 : String) (v : α) (hne : k2 ≠ k) :
    ∀ (d : List (String × α)),
      (d ++ [(k, v)]).find? (fun p => p.1 == k2) = d.find? (fun p => p.1 == k2) := by
  intro d
  induction d with
  | nil =>
    have : (k == k2) = false := by
      simp only [beq_eq_false_iff_ne, ne_eq]
      exact fun he => hne he.symm
    simp [this]
  | cons p d ih =>
    simp only [List.cons_append, List.find?_cons]
    cases hq : (p.1 == k2) with
    | true => rfl
    | false => exact ih

theorem dictGet?_insert_self {α : Type} (d : List (String × α)) (k : String) (v : α) :
    dictGet? (dictInsert d k v) k = some v := by
  unfold dictInsert dictGet?
  cases hany : d.any (fun p => p.1 == k) with
  | true =>
    simp only [if_true]
    rw [find?_map_overwrite k v d hany]
    rfl
  | false =>
    simp only [Bool.false_eq_true, if_false]
    rw [find?_append_none k v d hany]
    rfl

theorem dictGet?_insert_ne {α : Type} (d : List (String × α)) (k k2 : String) (v : α)
    (hne : k2 ≠ k) : dictGet? (dictInsert d k v) k2 = dictGet? d k2 := by
  unfold dictInsert dictGet?
  cases hany : d.any (fun p => p.1 == k) with
  | true =>
    simp only [if_true]
    rw [find?_map_overwrite_ne k k2 v hne d]
  | false =>
    simp only [Bool.false_eq_true, if_false]
    rw [find?_append_ne k k2 v hne d]

theorem execLoop_spec : ∀ (sess : List (String × CmdEvent)) (acc : List (String × String)),
    (∀ p ∈ sess, p.2.writeErr = none) →
    ∃ m, execLoop sess acc = .ok m ∧
      (∀ k t, dictGet? acc k = some t → ∃ t2, dictGet? m k = some t2) ∧
      (∀ p ∈ sess, ∃ t, dictGet? m p.1 = some t) ∧
      (∀ k, k ∉ sess.map Prod.fst → dictGet? m k = dictGet? acc k) ∧
      ((sess.map Prod.fst).Nodup → ∀ p ∈ sess, dictGet? m p.1 = some (captureOf p.2)) := by
  intro sess
  induction sess with
  | nil =>
    intro acc _
    refine ⟨acc, rfl, fun k t h => ⟨t, h⟩, by simp, fun k _ => rfl, by simp⟩
  | cons ce rest ih =>
    intro acc hw
    obtain ⟨c, ev⟩ := ce
    have hwev : ev.writeErr = none := hw (c, ev) (by simp)
    have hwrest : ∀ p ∈ rest, p.2.writeErr = none := fun p hp => hw p (by simp [hp])
    obtain ⟨m, hm, hpres, hmem, hout, hnodup⟩ :=
      ih (dictInsert acc c (captureOf ev)) hwrest
    refine ⟨m, ?_, ?_, ?_, ?_, ?_⟩
    · simp only [execLoop, hwev, hm]
    · intro k t hk
      by_cases hkc : k = c
      · subst hkc
        exact hpres k (captureOf ev) (dictGet?_insert_self acc k (captureOf ev))
      · refine hpres k t ?_
        rw [dictGet?_insert_ne acc c k (captureOf ev) hkc]
        exact hk
    · intro p hp
      rcases List.mem_cons.mp hp with h | hp2
      · subst h
        exact hpres c (captureOf ev) (dictGet?_insert_self acc c (captureOf ev))
      · exact hmem p hp2
    · intro k hk
      simp only [List.map_cons, List.mem_cons, not_or] at hk
      rw [hout k hk.2, dictGet?_insert_ne acc c k (captureOf ev) hk.1]
    · intro hnd p hp
      simp only [List.map_cons] at hnd
      have hnd2 := List.nodup_cons.mp hnd
      rcases List.mem_cons.mp hp with h | hp2
      · subst h
        show dictGet? m c = some (captureOf ev)
        rw [hout c hnd2.1, dictGet?_insert_self]
      · exact hnodup hnd2.2 p hp2

/-- C6: for every ordered command list whose writes all succeed, the
session multiplexer returns a mapping containing every requested command
as a key; a read timeout for one command leaves its captured text empty
without preventing later commands, and (for distinct commands) each
command is mapped to exactly the text captured for it. -/
theorem c6_multiplexer_maps_every_command (session : List (String × CmdEvent))
    (hw : ∀ p ∈ session, p.2.writeErr = none) :
    ∃ m, execute_multiple_commands none session = .ok m ∧
      (∀ p ∈ session, ∃ t, dictGet? m p.1 = some t) ∧
      ((session.map Prod.fst).Nodup →
        ∀ p ∈ session, dictGet? m p.1 = some (captureOf p.2)) := by
  obtain ⟨m, hm, _, hmem, _, hnd⟩ := execLoop_spec session [] hw
  exact ⟨m, hm, hmem, hnd⟩

/-- Witness for C6: three commands where the second command's read times
out — the returned mapping contains all three commands, the second mapped
to the empty string. -/
theorem c6_multiplexer_maps_every_command_witness :
    ∃ m, execute_multiple_commands none
        [("showlanstats", ⟨none, some "lan text"⟩),
         ("showwanstats", ⟨none, none⟩),
         ("lasercheck", ⟨none, some "laser text"⟩)] = .ok m ∧
      (∀ p ∈ ([("showlanstats", (⟨none, some "lan text"⟩ : CmdEvent)),
         ("showwanstats", ⟨none, none⟩),
         ("lasercheck", ⟨none, some "laser text"⟩)] :
           List (String × CmdEvent)), ∃ t, dictGet? m p.1 = some t) ∧
      ((([("showlanstats", (⟨none, some "lan text"⟩ : CmdEvent)),
         ("showwanstats", ⟨none, none⟩),
         ("lasercheck", ⟨none, some "laser text"⟩)] :
           List (String × CmdEvent)).map Prod.fst).Nodup →
        ∀ p ∈ ([("showlanstats", (⟨none, some "lan text"⟩ : CmdEvent)),
         ("showwanstats", ⟨none, none⟩),
         ("lasercheck", ⟨none, some "laser text"⟩)] :
           List (String × CmdEvent)), dictGet? m p.1 = some (captureOf p.2)) :=
  c6_multiplexer_maps_every_command
    [("showlanstats", ⟨none, some "lan text"⟩),
     ("showwanstats", ⟨none, none⟩),
     ("lasercheck", ⟨none, some "laser text"⟩)]
    (by
      intro p hp
      simp only [List.mem_cons, List.not_mem_nil, or_false] at hp
      rcases hp with rfl | rfl | rfl <;> rfl)
